import Mathlib

/-!
Verification of the competitive ranking and challenge-matchmaking engine
(`cogs/bapnboard.py`, `cogs/bapnboard_storage.py`) against its
natural-language specification.

The Python code is shallowly embedded: floats are modelled as real numbers,
dictionaries as association lists with Python's insert-or-update-in-place
semantics, and the mutable per-guild state as explicit state records.
Human-readable renderings of numeric values (`format_time_value`,
`str(int(...))`) are modelled by the underlying numbers themselves.
-/

/-- Python truthiness-based `or` on optional integers: `x or d` yields `d`
when `x` is `None` or `0`. Used for `info.get("target") or 1`. -/
def pyOrInt (x : Option Int) (d : Int) : Int :=
  match x with
  | none => d
  | some v => if v = 0 then d else v

/-- Python `int()` truncation of a float toward zero. -/
noncomputable def pyInt (x : ℝ) : ℤ :=
  if 0 ≤ x then ⌊x⌋ else ⌈x⌉

/-- Embeds the possible Python values fed to `normalize_mode_value`:
a mode dictionary `{"key": ..., "target": ...}` (either entry possibly
absent), a plain string, or `None` / any other non-dict non-string value. -/
inductive ModeValue where
  | dict (key : Option String) (target : Option Int)
  | str (s : String)
  | null
deriving DecidableEq, Repr

/-- One entry of the `MODES` table in `bapnboard_shared.py`. -/
structure ModeTemplate where
  label : String
  type : String
  default_target : Option Int
deriving DecidableEq, Repr

/-- The `MODES` table: `speedrun` (time) and `score` (first to X). -/
def MODES (key : String) : Option ModeTemplate :=
  if key = "speedrun" then some ⟨"Speedrun", "time", none⟩
  else if key = "score" then some ⟨"First to X", "score", some 1⟩
  else none

/-- The normalized mode dictionary returned by `normalize_mode_value`. -/
structure ModeInfo where
  key : String
  type : String
  label : String
  target : Option Int
deriving DecidableEq, Repr

/-- Digit-string to number, modelling Python `int(digits)` on a nonempty
all-digit string. -/
def digitsVal (cs : List Char) : Nat :=
  cs.foldl (fun n c => n * 10 + (c.toNat - 48)) 0

/-- Python `int(s)` on a string key: succeeds exactly on nonempty all-digit
strings (the only shape occurring for the `str(user_id)` submission keys),
yielding their value. -/
def pyStrToNat (s : String) : Option Nat :=
  if ¬ s.toList.isEmpty ∧ s.toList.all Char.isDigit then some (digitsVal s.toList)
  else none

/-- Embedding of `LeaderboardCog.normalize_mode_value`. The two arms of the
source's final `if template["type"] == "score"` differ only in the `target`
entry, so the result is assembled with a single conditional on that entry:
for score modes `target` is `max(1, int(target or default_target))` (an
absent or unconvertible target falls back to `default_target`), for time
modes it is `None`. -/
def normalize_mode_value (value : ModeValue) : ModeInfo :=
  let kt : String × Option Int :=
    match value with
    | .dict k t => (k.getD "speedrun", t)
    | .str s =>
      let lowered := s.toLower
      if lowered.startsWith "ft" then
        let digits := lowered.toList.filter Char.isDigit
        ("score", if digits.isEmpty then none else some (digitsVal digits))
      else (lowered, none)
    | .null => ("speedrun", none)
  let key := if (MODES kt.1).isSome then kt.1 else "speedrun"
  let template := (MODES key).getD ⟨"Speedrun", "time", none⟩
  let target : Option Int :=
    if template.type = "score" then
      some (max 1 (match kt.2 with
        | some t => t
        | none => template.default_target.getD 1))
    else none
  ⟨key, template.type, template.label, target⟩

/-- The expected score `1 / (1 + 10^((elo_l - elo_w)/400))` from
`compute_elo_change`. -/
noncomputable def expected_score (elo_w elo_l : ℝ) : ℝ :=
  1 / (1 + (10 : ℝ) ^ ((elo_l - elo_w) / 400))

/-- The time-mode margin scale of `compute_elo_change`, with
`margin = max(0, loser_metric - winner_metric)` and
`winner_time = max(winner_metric, 1e-3)`:
`max(min((margin/winner_time)/0.10, 1), min(margin/45, 1))`. -/
noncomputable def margin_scale_time (winner_metric loser_metric : ℝ) : ℝ :=
  max (min ((max 0 (loser_metric - winner_metric) / max winner_metric 0.001) / 0.10) 1)
    (min (max 0 (loser_metric - winner_metric) / 45) 1)

/-- The time-mode length scale of `compute_elo_change`:
`min(180 / max(winner_time, 180), 1)`. -/
noncomputable def length_scale_time (winner_metric : ℝ) : ℝ :=
  min (180 / max (max winner_metric 0.001) 180) 1

/-- The time-mode margin multiplier of `compute_elo_change`. -/
noncomputable def margin_multiplier_time (winner_metric loser_metric : ℝ) : ℝ :=
  (0.2 + 0.8 * margin_scale_time winner_metric loser_metric) *
    (0.6 + 0.4 * length_scale_time winner_metric)

/-- The score-mode margin scale of `compute_elo_change`, with
`diff = max(0, winner_metric - loser_metric)`:
`max(min(diff/max(target,1), 1), min(diff/max(target*0.5,1), 1))`. -/
noncomputable def margin_scale_score (target winner_metric loser_metric : ℝ) : ℝ :=
  max (min (max 0 (winner_metric - loser_metric) / max target 1) 1)
    (min (max 0 (winner_metric - loser_metric) / max (target * 0.5) 1) 1)

/-- The score-mode margin multiplier of `compute_elo_change`. -/
noncomputable def margin_multiplier_score (target winner_metric loser_metric : ℝ) : ℝ :=
  0.25 + 0.75 * margin_scale_score target winner_metric loser_metric

/-- The swing factor of `compute_elo_change`, including the
`[0.35, 2.75]` clamp. -/
noncomputable def swing_factor (expected : ℝ) : ℝ :=
  max 0.35 (min (if expected < 0.5 then 1 + (0.5 - expected) * 3
                 else 1 - (expected - 0.5) * 0.8) 2.75)

/-- Embedding of `LeaderboardCog.compute_elo_change`. The final result is
`base_k * margin_multiplier * swing_factor * (1 - expected)`. -/
noncomputable def compute_elo_change (mode_info : ModeValue)
    (elo_w elo_l winner_metric loser_metric : ℝ) : ℝ :=
  let info := normalize_mode_value mode_info
  let expected := expected_score elo_w elo_l
  let margin_multiplier : ℝ :=
    if info.type = "time" then
      margin_multiplier_time winner_metric loser_metric
    else
      margin_multiplier_score (max 1 ((pyOrInt info.target 1 : ℤ) : ℝ))
        winner_metric loser_metric
  let base_k : ℝ := if info.type = "time" then 30 else 26
  base_k * margin_multiplier * swing_factor expected * (1 - expected)

/-! ## Rating engine bounds (claims C1, C2) -/

lemma MODES_getD_type (k : String) :
    ((MODES k).getD ⟨"Speedrun", "time", none⟩).type = "time" ∨
    ((MODES k).getD ⟨"Speedrun", "time", none⟩).type = "score" := by
  unfold MODES
  split_ifs <;> simp

lemma normalize_mode_value_type (v : ModeValue) :
    (normalize_mode_value v).type = "time" ∨ (normalize_mode_value v).type = "score" := by
  simp only [normalize_mode_value]
  exact MODES_getD_type _

lemma expected_score_pos (w l : ℝ) : 0 < expected_score w l := by
  unfold expected_score
  have h : (0:ℝ) < (10 : ℝ) ^ ((l - w) / 400) := Real.rpow_pos_of_pos (by norm_num) _
  positivity

lemma expected_score_lt_one (w l : ℝ) : expected_score w l < 1 := by
  unfold expected_score
  have h : (0:ℝ) < (10 : ℝ) ^ ((l - w) / 400) := Real.rpow_pos_of_pos (by norm_num) _
  rw [div_lt_one (by linarith)]
  linarith

lemma expected_score_self (w : ℝ) : expected_score w w = 1/2 := by
  unfold expected_score
  rw [show (w - w) / 400 = 0 by ring, Real.rpow_zero]
  norm_num

lemma swing_factor_ge (e : ℝ) : 0.35 ≤ swing_factor e := le_max_left _ _

lemma swing_factor_half : swing_factor (1/2) = 1 := by
  unfold swing_factor
  norm_num

lemma swing_factor_mul_lt (e : ℝ) (h0 : 0 < e) (h1 : e < 1) :
    swing_factor e * (1 - e) < 5/2 := by
  unfold swing_factor
  split_ifs with h
  · rw [min_eq_left (by nlinarith), max_eq_right (by nlinarith)]
    nlinarith
  · rw [min_eq_left (by nlinarith), max_eq_right (by nlinarith)]
    nlinarith

lemma margin_scale_time_nonneg (wm lm : ℝ) : 0 ≤ margin_scale_time wm lm := by
  unfold margin_scale_time
  have hm : (0:ℝ) ≤ max 0 (lm - wm) := le_max_left _ _
  have hw : (0:ℝ) < max wm 0.001 := lt_of_lt_of_le (by norm_num) (le_max_right _ _)
  exact le_trans (le_min (by positivity) (by norm_num)) (le_max_right _ _)

lemma margin_scale_time_le_one (wm lm : ℝ) : margin_scale_time wm lm ≤ 1 := by
  unfold margin_scale_time
  exact max_le (min_le_right _ _) (min_le_right _ _)

lemma length_scale_time_pos (wm : ℝ) : 0 < length_scale_time wm := by
  unfold length_scale_time
  have : (0:ℝ) < max (max wm 0.001) 180 := lt_of_lt_of_le (by norm_num) (le_max_right _ _)
  exact lt_min (by positivity) (by norm_num)

lemma length_scale_time_le_one (wm : ℝ) : length_scale_time wm ≤ 1 :=
  min_le_right _ _

lemma margin_multiplier_time_ge (wm lm : ℝ) : 3/25 ≤ margin_multiplier_time wm lm := by
  unfold margin_multiplier_time
  have h1 := margin_scale_time_nonneg wm lm
  have h2 := length_scale_time_pos wm
  nlinarith

lemma margin_multiplier_time_le_one (wm lm : ℝ) : margin_multiplier_time wm lm ≤ 1 := by
  unfold margin_multiplier_time
  have h1 := margin_scale_time_nonneg wm lm
  have h2 := margin_scale_time_le_one wm lm
  have h3 := length_scale_time_pos wm
  have h4 := length_scale_time_le_one wm
  nlinarith

lemma margin_scale_score_nonneg (t wm lm : ℝ) : 0 ≤ margin_scale_score t wm lm := by
  unfold margin_scale_score
  have hd : (0:ℝ) ≤ max 0 (wm - lm) := le_max_left _ _
  have h1 : (0:ℝ) < max t 1 := lt_of_lt_of_le (by norm_num) (le_max_right _ _)
  exact le_trans (le_min (by positivity) (by norm_num)) (le_max_right _ _)

lemma margin_scale_score_le_one (t wm lm : ℝ) : margin_scale_score t wm lm ≤ 1 := by
  unfold margin_scale_score
  exact max_le (min_le_right _ _) (min_le_right _ _)

lemma margin_multiplier_score_ge (t wm lm : ℝ) : 1/4 ≤ margin_multiplier_score t wm lm := by
  unfold margin_multiplier_score
  have := margin_scale_score_nonneg t wm lm
  nlinarith

lemma margin_multiplier_score_le_one (t wm lm : ℝ) : margin_multiplier_score t wm lm ≤ 1 := by
  unfold margin_multiplier_score
  have := margin_scale_score_le_one t wm lm
  nlinarith

lemma compute_elo_change_pos (mv : ModeValue) (w l wm lm : ℝ) :
    0 < compute_elo_change mv w l wm lm := by
  unfold compute_elo_change
  have he0 := expected_score_pos w l
  have he1 := expected_score_lt_one w l
  have hsw : (0:ℝ) < swing_factor (expected_score w l) :=
    lt_of_lt_of_le (by norm_num) (swing_factor_ge _)
  have h1e : (0:ℝ) < 1 - expected_score w l := by linarith
  by_cases h : (normalize_mode_value mv).type = "time"
  · simp only [if_pos h]
    have hmm := margin_multiplier_time_ge wm lm
    exact mul_pos (mul_pos (mul_pos (by norm_num) (by linarith)) hsw) h1e
  · simp only [if_neg h]
    have hmm := margin_multiplier_score_ge
      (max 1 ((pyOrInt (normalize_mode_value mv).target 1 : ℤ) : ℝ)) wm lm
    exact mul_pos (mul_pos (mul_pos (by norm_num) (by linarith)) hsw) h1e

lemma compute_elo_change_lt_time (mv : ModeValue) (w l wm lm : ℝ)
    (h : (normalize_mode_value mv).type = "time") :
    compute_elo_change mv w l wm lm < 75 := by
  unfold compute_elo_change
  simp only [if_pos h]
  have he0 := expected_score_pos w l
  have he1 := expected_score_lt_one w l
  have hsw := swing_factor_ge (expected_score w l)
  have hswm := swing_factor_mul_lt (expected_score w l) he0 he1
  have h1 := margin_multiplier_time_ge wm lm
  have h2 := margin_multiplier_time_le_one wm lm
  have h0 : (0:ℝ) ≤ swing_factor (expected_score w l) * (1 - expected_score w l) :=
    mul_nonneg (by linarith) (by linarith)
  calc 30 * margin_multiplier_time wm lm * swing_factor (expected_score w l) *
        (1 - expected_score w l)
      = (30 * margin_multiplier_time wm lm) *
        (swing_factor (expected_score w l) * (1 - expected_score w l)) := by ring
    _ ≤ 30 * (swing_factor (expected_score w l) * (1 - expected_score w l)) :=
        mul_le_mul_of_nonneg_right (by linarith) h0
    _ < 30 * (5/2) := by linarith [mul_lt_mul_of_pos_left hswm (show (0:ℝ) < 30 by norm_num)]
    _ = 75 := by norm_num

lemma compute_elo_change_lt_score (mv : ModeValue) (w l wm lm : ℝ)
    (h : ¬ (normalize_mode_value mv).type = "time") :
    compute_elo_change mv w l wm lm < 65 := by
  unfold compute_elo_change
  simp only [if_neg h]
  have he0 := expected_score_pos w l
  have he1 := expected_score_lt_one w l
  have hsw := swing_factor_ge (expected_score w l)
  have hswm := swing_factor_mul_lt (expected_score w l) he0 he1
  set t := max 1 ((pyOrInt (normalize_mode_value mv).target 1 : ℤ) : ℝ) with ht
  have h1 := margin_multiplier_score_ge t wm lm
  have h2 := margin_multiplier_score_le_one t wm lm
  have h0 : (0:ℝ) ≤ swing_factor (expected_score w l) * (1 - expected_score w l) :=
    mul_nonneg (by linarith) (by linarith)
  calc 26 * margin_multiplier_score t wm lm * swing_factor (expected_score w l) *
        (1 - expected_score w l)
      = (26 * margin_multiplier_score t wm lm) *
        (swing_factor (expected_score w l) * (1 - expected_score w l)) := by ring
    _ ≤ 26 * (swing_factor (expected_score w l) * (1 - expected_score w l)) :=
        mul_le_mul_of_nonneg_right (by linarith) h0
    _ < 26 * (5/2) := by linarith [mul_lt_mul_of_pos_left hswm (show (0:ℝ) < 26 by norm_num)]
    _ = 65 := by norm_num

lemma margin_scale_time_mono (wm : ℝ) {lm lm' : ℝ} (h : lm ≤ lm') :
    margin_scale_time wm lm ≤ margin_scale_time wm lm' := by
  unfold margin_scale_time
  have hw : (0:ℝ) < max wm 0.001 := lt_of_lt_of_le (by norm_num) (le_max_right _ _)
  gcongr

lemma margin_multiplier_time_mono (wm : ℝ) {lm lm' : ℝ} (h : lm ≤ lm') :
    margin_multiplier_time wm lm ≤ margin_multiplier_time wm lm' := by
  unfold margin_multiplier_time
  have h1 := margin_scale_time_mono wm h
  have h2 := length_scale_time_pos wm
  nlinarith

lemma margin_scale_score_mono (t lm : ℝ) {wm wm' : ℝ} (h : wm ≤ wm') :
    margin_scale_score t wm lm ≤ margin_scale_score t wm' lm := by
  unfold margin_scale_score
  have h1 : (0:ℝ) < max t 1 := lt_of_lt_of_le (by norm_num) (le_max_right _ _)
  have h2 : (0:ℝ) < max (t * 0.5) 1 := lt_of_lt_of_le (by norm_num) (le_max_right _ _)
  gcongr

lemma margin_multiplier_score_mono (t lm : ℝ) {wm wm' : ℝ} (h : wm ≤ wm') :
    margin_multiplier_score t wm lm ≤ margin_multiplier_score t wm' lm := by
  unfold margin_multiplier_score
  have h1 := margin_scale_score_mono t lm h
  nlinarith

lemma compute_elo_change_mono_time (mv : ModeValue) (w l wm : ℝ) {lm lm' : ℝ}
    (ht : (normalize_mode_value mv).type = "time") (h : lm ≤ lm') :
    compute_elo_change mv w l wm lm ≤ compute_elo_change mv w l wm lm' := by
  unfold compute_elo_change
  simp only [if_pos ht]
  have he0 := expected_score_pos w l
  have he1 := expected_score_lt_one w l
  have hsw : (0:ℝ) ≤ swing_factor (expected_score w l) :=
    le_trans (by norm_num) (swing_factor_ge _)
  have h1e : (0:ℝ) ≤ 1 - expected_score w l := by linarith
  have hmm := margin_multiplier_time_mono wm h
  exact mul_le_mul_of_nonneg_right
    (mul_le_mul_of_nonneg_right (by linarith) hsw) h1e

lemma compute_elo_change_mono_score (mv : ModeValue) (w l lm : ℝ) {wm wm' : ℝ}
    (ht : ¬ (normalize_mode_value mv).type = "time") (h : wm ≤ wm') :
    compute_elo_change mv w l wm lm ≤ compute_elo_change mv w l wm' lm := by
  unfold compute_elo_change
  simp only [if_neg ht]
  have he0 := expected_score_pos w l
  have he1 := expected_score_lt_one w l
  have hsw : (0:ℝ) ≤ swing_factor (expected_score w l) :=
    le_trans (by norm_num) (swing_factor_ge _)
  have h1e : (0:ℝ) ≤ 1 - expected_score w l := by linarith
  have hmm := margin_multiplier_score_mono
    (max 1 ((pyOrInt (normalize_mode_value mv).target 1 : ℤ) : ℝ)) lm h
  exact mul_le_mul_of_nonneg_right
    (mul_le_mul_of_nonneg_right (by linarith) hsw) h1e

lemma normalize_speedrun_dict :
    normalize_mode_value (.dict (some "speedrun") none) =
      ⟨"speedrun", "time", "Speedrun", none⟩ := rfl

lemma compute_elo_change_speedrun_60_62 :
    compute_elo_change (.dict (some "speedrun") none) 800 800 60 62 = 7 := by
  unfold compute_elo_change
  simp only [expected_score_self, swing_factor_half, normalize_speedrun_dict]
  norm_num [margin_multiplier_time, margin_scale_time, length_scale_time]

/-- C1 (counterexample): the claimed bounds fail on the code. With winner
rating 0 and loser rating 800 in time mode the delta exceeds 30 (it is
about 73.4), and once the margin scale saturates (margins 50 and 60 with a
60-second winning time) the delta is constant rather than strictly
increasing in the margin. -/
theorem compute_elo_change_c1_counterexample :
    30 < compute_elo_change (.dict (some "speedrun") none) 0 800 60 200 ∧
    compute_elo_change (.dict (some "speedrun") none) 800 800 60 110 =
      compute_elo_change (.dict (some "speedrun") none) 800 800 60 120 := by
  have he : expected_score 0 800 = 1/101 := by
    unfold expected_score
    rw [show ((800:ℝ) - 0) / 400 = ((2:ℕ) : ℝ) by norm_num, Real.rpow_natCast]
    norm_num
  have hs : swing_factor (1/101) = 499/202 := by
    unfold swing_factor
    norm_num
  constructor
  · unfold compute_elo_change
    simp only [he, hs, normalize_speedrun_dict]
    norm_num [margin_multiplier_time, margin_scale_time, length_scale_time]
  · unfold compute_elo_change
    simp only [expected_score_self, swing_factor_half, normalize_speedrun_dict]
    norm_num [margin_multiplier_time, margin_scale_time, length_scale_time]

/-- C1 (amended): for every mode value and all real ratings and metrics the
delta of `compute_elo_change` is strictly positive, bounded by 75 in time
mode and by 65 in score mode (the swing factor reaches up to 2.5 for
underdog winners, scaling the base K of 30 resp. 26), and is monotonically
nondecreasing in the performance margin (loser metric for time mode, winner
metric for score mode) with all other arguments fixed; it is constant once
the margin scale saturates, so the increase is not strict everywhere. -/
theorem compute_elo_change_range_monotone (mv : ModeValue) (elo_w elo_l wm lm : ℝ) :
    0 < compute_elo_change mv elo_w elo_l wm lm ∧
    ((normalize_mode_value mv).type = "time" →
      compute_elo_change mv elo_w elo_l wm lm < 75 ∧
      ∀ lm', lm ≤ lm' →
        compute_elo_change mv elo_w elo_l wm lm ≤ compute_elo_change mv elo_w elo_l wm lm') ∧
    ((normalize_mode_value mv).type = "score" →
      compute_elo_change mv elo_w elo_l wm lm < 65 ∧
      ∀ wm', wm ≤ wm' →
        compute_elo_change mv elo_w elo_l wm lm ≤ compute_elo_change mv elo_w elo_l wm' lm) := by
  refine ⟨compute_elo_change_pos mv elo_w elo_l wm lm, fun ht => ?_, fun hs => ?_⟩
  · exact ⟨compute_elo_change_lt_time mv elo_w elo_l wm lm ht,
      fun lm' h => compute_elo_change_mono_time mv elo_w elo_l wm ht h⟩
  · have hnt : ¬ (normalize_mode_value mv).type = "time" := by
      rw [hs]
      decide
    exact ⟨compute_elo_change_lt_score mv elo_w elo_l wm lm hnt,
      fun wm' h => compute_elo_change_mono_score mv elo_w elo_l lm hnt h⟩

/-- C1 (witness): the amended theorem applied at the concrete speedrun-mode
input of two 800-rated players with times 60 and 62 seconds. -/
theorem compute_elo_change_range_monotone_witness :
    ((normalize_mode_value (.dict (some "speedrun") none)).type = "time" ∧
      (60:ℝ) ≤ 62) ∧
    compute_elo_change (.dict (some "speedrun") none) 800 800 60 62 < 75 ∧
    compute_elo_change (.dict (some "speedrun") none) 800 800 60 60 ≤
      compute_elo_change (.dict (some "speedrun") none) 800 800 60 62 :=
  ⟨⟨rfl, by norm_num⟩,
    ((compute_elo_change_range_monotone (.dict (some "speedrun") none) 800 800 60 62).2.1
      rfl).1,
    ((compute_elo_change_range_monotone (.dict (some "speedrun") none) 800 800 60 60).2.1
      rfl).2 62 (by norm_num)⟩

/-- C2 (counterexample): the worked example in the spec is wrong on the
code. For two 800-rated players in speedrun mode with times 60 and 62
seconds, the relative bound dominates the margin scale (it equals 1/3, not
about 0.044), and the delta is exactly 7, not approximately 3.53. -/
theorem compute_elo_change_c2_counterexample :
    margin_scale_time 60 62 = 1/3 ∧
    compute_elo_change (.dict (some "speedrun") none) 800 800 60 62 = 7 ∧
    ¬ |compute_elo_change (.dict (some "speedrun") none) 800 800 60 62 - 3.53| ≤ 0.05 := by
  refine ⟨?_, compute_elo_change_speedrun_60_62, ?_⟩
  · unfold margin_scale_time
    norm_num
  · rw [compute_elo_change_speedrun_60_62]
    rw [abs_le]
    norm_num

/-- C2 (amended): for two players both rated 800 in speedrun mode with
winner time 60.000 s and loser time 62.000 s, the relative bound dominates:
marginScale = 1/3, marginMultiplier = 7/15 (about 0.467), expected = 0.5,
swing = 1, delta = 7; applying the result per `complete_match` gives the
winner max(0, 800 + 7) = 807 and the loser max(0, 800 - 7) = 793. -/
theorem compute_elo_change_c2_amended :
    expected_score 800 800 = 1/2 ∧
    swing_factor (expected_score 800 800) = 1 ∧
    margin_scale_time 60 62 = 1/3 ∧
    margin_multiplier_time 60 62 = 7/15 ∧
    compute_elo_change (.dict (some "speedrun") none) 800 800 60 62 = 7 ∧
    max 0 (800 + compute_elo_change (.dict (some "speedrun") none) 800 800 60 62) = 807 ∧
    max 0 (800 - compute_elo_change (.dict (some "speedrun") none) 800 800 60 62) = 793 := by
  refine ⟨expected_score_self 800, ?_, ?_, ?_, compute_elo_change_speedrun_60_62, ?_, ?_⟩
  · rw [expected_score_self, swing_factor_half]
  · unfold margin_scale_time
    norm_num
  · unfold margin_multiplier_time margin_scale_time length_scale_time
    norm_num
  · rw [compute_elo_change_speedrun_60_62]
    norm_num
  · rw [compute_elo_change_speedrun_60_62]
    norm_num

/-! ## Dictionaries, match registry and roster (data model) -/

/-- Python-dict lookup on an association list (keys are unique in every
well-formed state, mirroring dict semantics). -/
def alistGet {κ α : Type} [DecidableEq κ] (l : List (κ × α)) (k : κ) : Option α :=
  (l.find? (fun p => p.1 = k)).map Prod.snd

/-- Python-dict assignment `d[k] = v`: update the first binding in place
(dicts keep insertion order on update), or append a new binding. -/
def alistSet {κ α : Type} [DecidableEq κ] (l : List (κ × α)) (k : κ) (v : α) :
    List (κ × α) :=
  match l with
  | [] => [(k, v)]
  | p :: rest => if p.1 = k then (k, v) :: rest else p :: alistSet rest k v

/-- Python-dict `d.pop(k, None)`: drop the first binding of `k`. -/
def alistPop {κ α : Type} [DecidableEq κ] (l : List (κ × α)) (k : κ) : List (κ × α) :=
  match l with
  | [] => []
  | p :: rest => if p.1 = k then rest else p :: alistPop rest k

/-- Python-dict `d.setdefault(k, v)`. -/
def alistSetDefault {κ α : Type} [DecidableEq κ] (l : List (κ × α)) (k : κ) (v : α) :
    List (κ × α) :=
  if (alistGet l k).isSome then l else l ++ [(k, v)]

/-- One roster record: `{"elo": float, "wins": int, "losses": int}`. -/
structure PlayerStats where
  elo : ℝ
  wins : Nat
  losses : Nat

/-- One submission record of a match's `submissions` map. The source's
human-readable `value` string (`format_time_value(metric)` resp.
`str(score)`) is modelled by the number it renders. -/
structure Submission where
  kind : String
  value : ℝ
  metric : ℝ
  submitted_at : Option String

/-- The `result` payload written by `complete_match`. The `winner_value` /
`loser_value` strings are modelled by the numbers they render. -/
structure MatchResult where
  winner_id : Nat
  loser_id : Nat
  winner_value : ℝ
  loser_value : ℝ
  override_notes : Option String
  completed_at : String
  winner_elo_change : ℝ
  loser_elo_change : ℝ
  winner_new_elo : ℝ
  loser_new_elo : ℝ
  winner_old_elo : ℝ
  loser_old_elo : ℝ

/-- One active-match dictionary, with the fields read or written by the
match lifecycle and the persistence layer. -/
structure MatchData where
  id : String
  leaderboard : String
  challenger_id : Nat
  opponent_id : Option Nat
  status : String
  channel_id : Option Nat
  message_id : Option Nat
  thread_id : Option Nat
  thread_message_id : Option Nat
  created_at : String
  rank_range : Option Int
  mode : Option ModeValue
  response_deadline : Option String
  accepted_at : Option String
  submissions : List (String × Submission)
  cancel_votes : List Nat
  result : Option MatchResult

/-- One per-category bucket of `active_fights`: the `"matches"` dict
(named `matchesMap` here since `matches` is reserved) and the
`"deletions"` list of `(thread_id, delete_at)` entries. -/
structure Bucket where
  matchesMap : List (String × MatchData)
  deletions : List (Nat × String)

/-- The per-guild active-match registry `active_fights[gid]`, keyed by
category. -/
abbrev Registry := List (String × Bucket)

/-- Embedding of `bapnboard_shared.normalize_category`. -/
def normalize_category (category : String) : String :=
  (category.replace " " "_").toLower

/-- Terminal statuses skipped by `find_active_match_for`. -/
def isTerminal (s : String) : Bool :=
  s = "completed" || s = "cancelled"

/-- Participation test of `find_active_match_for`: the user is the
challenger or the assigned opponent (the source's extra
`opponent is None and challenger == user_id` arm is subsumed by the
first disjunct). -/
def matchInvolves (m : MatchData) (uid : Nat) : Bool :=
  m.challenger_id = uid || m.opponent_id = some uid

/-- Scan of one bucket's matches for `find_active_match_for`. -/
def findActiveInMatches (category : String) (ms : List (String × MatchData))
    (uid : Nat) (exclude : Option String) : Option (String × String × MatchData) :=
  match ms with
  | [] => none
  | (mid, m) :: rest =>
    if exclude = some mid then findActiveInMatches category rest uid exclude
    else if isTerminal m.status then findActiveInMatches category rest uid exclude
    else if matchInvolves m uid then some (category, mid, m)
    else findActiveInMatches category rest uid exclude

/-- Embedding of `LeaderboardCog.find_active_match_for` (one guild):
the first non-terminal match involving the user, in registry order,
optionally excluding one match id. -/
def find_active_match_for (reg : Registry) (uid : Nat) (exclude : Option String) :
    Option (String × String × MatchData) :=
  match reg with
  | [] => none
  | (cat, bucket) :: rest =>
    match findActiveInMatches cat bucket.matchesMap uid exclude with
    | some r => some r
    | none => find_active_match_for rest uid exclude

/-- Embedding of `get_active_bucket` (read part): the category's bucket,
defaulting to an empty one. -/
def get_bucket (reg : Registry) (cat : String) : Bucket :=
  (alistGet reg cat).getD ⟨[], []⟩

/-- Embedding of `LeaderboardCog.get_match`. -/
def get_match (reg : Registry) (cat mid : String) : Option MatchData :=
  alistGet (get_bucket reg cat).matchesMap mid

/-- Write one match into its category bucket
(`bucket["matches"][match_id] = match`). -/
def set_match (reg : Registry) (cat mid : String) (m : MatchData) : Registry :=
  let b := get_bucket reg cat
  alistSet reg cat { b with matchesMap := alistSet b.matchesMap mid m }

/-- Embedding of `delete_match`: pop one match from its category bucket. -/
def pop_match (reg : Registry) (cat mid : String) : Registry :=
  let b := get_bucket reg cat
  alistSet reg cat { b with matchesMap := alistPop b.matchesMap mid }

/-- Embedding of `schedule_thread_deletion` (pure part): update the first
deletion entry for the thread in place, else append one. -/
def schedule_thread_deletion (reg : Registry) (category : String) (thread_id : Nat)
    (delete_at : String) : Registry :=
  let b := get_bucket reg category
  alistSet reg category { b with deletions := alistSet b.deletions thread_id delete_at }

/-- Embedding of `cancel_active_match` (pure part): `none` models the
`False` return when the match is gone; otherwise the thread's deletion
entries are dropped and the match is removed. -/
def cancel_active_match (reg : Registry) (cat mid : String) : Option Registry :=
  match get_match reg cat mid with
  | none => none
  | some m =>
    let b := get_bucket reg cat
    let b1 := match m.thread_id with
      | some t => { b with deletions := b.deletions.filter (fun d => d.1 ≠ t) }
      | none => b
    some (pop_match (alistSet reg cat b1) cat mid)

/-- Helper of `get_player_rank`: 1-based position scan of the ranked list. -/
def rankLookup (l : List (Nat × PlayerStats)) (uid : Nat) (idx : Nat) :
    Option (Nat × PlayerStats) :=
  match l with
  | [] => none
  | (u, d) :: rest => if u = uid then some (idx, d) else rankLookup rest uid (idx + 1)

/-- Embedding of `LeaderboardCog.get_player_rank`: active (non-removed)
records sorted by rating descending with a stable sort (Python's `sorted`
with `reverse=True`), then the user's 1-based position. -/
noncomputable def get_player_rank (players : List (Nat × PlayerStats))
    (removedKeys : List Nat) (uid : Nat) : Option (Nat × PlayerStats) :=
  let eligible := players.filter (fun p => !(removedKeys.contains p.1))
  let ranked := eligible.mergeSort (fun a b => decide (b.2.elo ≤ a.2.elo))
  rankLookup ranked uid 1

/-! ## Match lifecycle operations -/

/-- One append-only match-history row written by `save_match_for`
(`user_value` / `opponent_value` strings modelled by their numbers). -/
structure HistoryRow where
  user_id : Nat
  recorded_at : String
  opponent_id : Nat
  challenger : Bool
  user_value : ℝ
  opponent_value : ℝ
  result : String
  elo_change : ℝ

/-- The mutable per-guild core state touched by match completion: the
active registry, the per-category player rosters (keyed by normalized
category) and the append-only match history. -/
structure GuildState where
  active : Registry
  players : List (String × List (Nat × PlayerStats))
  history : List HistoryRow

/-- Outcome of `complete_match` (`error`, or the summary-string return
modelled as the updated state). -/
inductive CompleteOutcome where
  | error
  | recorded (st : GuildState)

/-- The default roster record `{"elo": DEFAULT_START_ELO, "wins": 0,
"losses": 0}` with `DEFAULT_START_ELO = 800.0`. -/
def defaultStats : PlayerStats := ⟨800, 0, 0⟩

/-- The mode dictionary `{"key": ..., "target": ...}` built from a
normalized mode info. -/
def modeDictOf (i : ModeInfo) : ModeValue := .dict (some i.key) i.target

/-- Embedding of `LeaderboardCog.complete_match` (pure core). External
inputs are parameters: `cfgMode` stands for the configured fallback
`board_cfg.get("mode") or get_category_mode(...)` used when the match
carries no mode snapshot, `now` for the completion timestamp and
`cleanup_at` for the scheduled thread-deletion time. Roster mutations are
applied sequentially in program order, reproducing the source's in-place
updates (including the aliasing behaviour when winner and loser coincide).
Presentation (embeds, announcements, member snapshots) is outside the
model. -/
noncomputable def complete_match (st : GuildState) (category match_id : String)
    (winner_entry loser_entry : Nat × ℝ) (override_notes : Option String)
    (cfgMode : ModeValue) (now cleanup_at : String) : CompleteOutcome :=
  match get_match st.active category match_id with
  | none => .error
  | some m =>
    let winner_id := winner_entry.1
    let loser_id := loser_entry.1
    let info := normalize_mode_value (m.mode.getD cfgMode)
    let safe_cat := normalize_category category
    let players0 := (alistGet st.players safe_cat).getD []
    let players1 := alistSetDefault players0 winner_id defaultStats
    let players2 := alistSetDefault players1 loser_id defaultStats
    let winner_old_elo := ((alistGet players2 winner_id).getD defaultStats).elo
    let loser_old_elo := ((alistGet players2 loser_id).getD defaultStats).elo
    let target : Int := info.target.getD 1
    let wm0 := winner_entry.2
    let lm0 := loser_entry.2
    let wmv : ℝ × ℝ :=
      if info.type = "time" then (wm0, wm0)
      else if wm0 < (target : ℝ) then ((target : ℝ), (target : ℝ))
      else (wm0, ((pyInt wm0 : ℤ) : ℝ))
    let lv : ℝ := if info.type = "time" then lm0 else ((pyInt lm0 : ℤ) : ℝ)
    let players3 := alistSet players2 winner_id
      (let s := (alistGet players2 winner_id).getD defaultStats
       { s with wins := s.wins + 1 })
    let players4 := alistSet players3 loser_id
      (let s := (alistGet players3 loser_id).getD defaultStats
       { s with losses := s.losses + 1 })
    let elo_delta := compute_elo_change (modeDictOf info)
      ((alistGet players4 winner_id).getD defaultStats).elo
      ((alistGet players4 loser_id).getD defaultStats).elo wmv.1 lm0
    let players5 := alistSet players4 winner_id
      (let s := (alistGet players4 winner_id).getD defaultStats
       { s with elo := max 0 (s.elo + elo_delta) })
    let players6 := alistSet players5 loser_id
      (let s := (alistGet players5 loser_id).getD defaultStats
       { s with elo := max 0 (s.elo - elo_delta) })
    let winner_new_elo := ((alistGet players6 winner_id).getD defaultStats).elo
    let loser_new_elo := ((alistGet players6 loser_id).getD defaultStats).elo
    let row_w : HistoryRow :=
      ⟨winner_id, now, loser_id, decide (winner_id = m.challenger_id),
        wmv.2, lv, "Win", elo_delta⟩
    let row_l : HistoryRow :=
      ⟨loser_id, now, winner_id, decide (loser_id = m.challenger_id),
        lv, wmv.2, "Loss", -elo_delta⟩
    let res : MatchResult :=
      ⟨winner_id, loser_id, wmv.2, lv, override_notes, now,
        elo_delta, -elo_delta, winner_new_elo, loser_new_elo,
        winner_old_elo, loser_old_elo⟩
    let m1 := { m with
      status := "completed"
      result := some res
      submissions := []
      cancel_votes := [] }
    let reg1 := set_match st.active category match_id m1
    let reg2 := match m.thread_id with
      | some t => schedule_thread_deletion reg1 category t cleanup_at
      | none => reg1
    let reg3 := pop_match reg2 category match_id
    .recorded { active := reg3,
                players := alistSet st.players safe_cat players6,
                history := st.history ++ [row_w, row_l] }

/-- A result value as parsed by `parse_time` resp. `parse_score`; a value
of the wrong shape for the category's mode models a parse failure. -/
inductive RawValue where
  | time (t : ℝ)
  | score (n : Int)

/-- Outcome of `submit_match_result` / `finalize_match_from_submissions`:
the ephemeral replies are modelled as constructors carrying the updated
state where one exists. -/
inductive SubmitOutcome where
  | noActive
  | notReady (status : String)
  | invalid
  | waitingOther (st : GuildState)
  | disputed (st : GuildState)
  | completed (st : GuildState)
  | error

/-- The scan of `finalize_match_from_submissions` over the submissions map
picking the last entry of the given kind whose key parses as an integer
user id. -/
def pickEntry (subs : List (String × Submission)) (k : String) :
    Option (Nat × Submission) :=
  subs.foldl (fun acc p =>
    match pyStrToNat p.1 with
    | none => acc
    | some uid => if p.2.kind = k then some (uid, p.2) else acc) none

/-- Embedding of `LeaderboardCog.finalize_match_from_submissions`. -/
noncomputable def finalize_match_from_submissions (st : GuildState)
    (category match_id : String) (cfgMode : ModeValue) (now cleanup_at : String) :
    SubmitOutcome :=
  match get_match st.active category match_id with
  | none => .error
  | some m =>
    match pickEntry m.submissions "win", pickEntry m.submissions "loss" with
    | some w, some l =>
      match complete_match st category match_id (w.1, w.2.metric) (l.1, l.2.metric)
          none cfgMode now cleanup_at with
      | .recorded st' => .completed st'
      | .error => .error
    | _, _ =>
      let m1 := { m with status := "disputed" }
      .disputed { st with active := set_match st.active category match_id m1 }

/-- The validation step of `submit_match_result`: `parse_time` /
`parse_score` plus the mode-dependent checks (positive time; nonnegative
score equal to the target for a win, below it for a loss), yielding the
`(metric, value)` pair or a rejection. -/
noncomputable def submitParse (info : ModeInfo) (kind : String) (value : RawValue) :
    Option (ℝ × ℝ) :=
  if info.type = "time" then
    match value with
    | .time t => if t ≤ 0 then none else some (t, t)
    | .score _ => none
  else
    match value with
    | .score n =>
      if n < 0 then none
      else
        let target := info.target.getD 1
        if kind = "win" ∧ n ≠ target then none
        else if kind = "loss" ∧ target ≤ n then none
        else some ((n : ℝ), (n : ℝ))
    | .time _ => none

/-- Embedding of `LeaderboardCog.submit_match_result` (pure core, after
the interaction plumbing): validation per mode, recording the submission
under `str(user_id)`, then dispute detection or finalization against the
other side's submission. -/
noncomputable def submit_match_result (st : GuildState) (user : Nat) (kind : String)
    (value : RawValue) (cfgMode : ModeValue) (now cleanup_at : String) :
    SubmitOutcome :=
  match find_active_match_for st.active user none with
  | none => .noActive
  | some (category, match_id, m) =>
    if ¬ (m.status = "awaiting_result" ∨ m.status = "pending") then .notReady m.status
    else
      let info := normalize_mode_value (m.mode.getD cfgMode)
      match submitParse info kind value with
      | none => .invalid
      | some mv =>
        let sub : Submission := ⟨if kind = "win" then "win" else "loss",
          mv.2, mv.1, some now⟩
        let m1 := { m with submissions := alistSet m.submissions (toString user) sub }
        let reg1 := set_match st.active category match_id m1
        let st1 : GuildState := { st with active := reg1 }
        let other_id : Option Nat :=
          if m.challenger_id = user then m.opponent_id else some m.challenger_id
        match other_id.bind (fun o => alistGet m1.submissions (toString o)) with
        | some orec =>
          if orec.kind = sub.kind then
            let m2 := { m1 with status := "disputed" }
            .disputed { st1 with active := set_match reg1 category match_id m2 }
          else
            finalize_match_from_submissions st1 category match_id cfgMode now cleanup_at
        | none =>
          let m2 := { m1 with status := "awaiting_result" }
          .waitingOther { st1 with active := set_match reg1 category match_id m2 }

/-- Outcome of `handle_match_decline`. -/
inductive DeclineOutcome where
  | rejected (msg : String)
  | forfeitRecorded (st : GuildState)
  | error

/-- Embedding of `LeaderboardCog.handle_match_decline` (pure core): a
decline of a pending targeted challenge by its opponent is recorded as a
forfeit completion with the fixed sentinel metrics (time mode: winner
0.001 s vs loser 30 s; score mode: winner `target` vs loser 0) and the
override note `"Declined"`. -/
noncomputable def handle_match_decline (st : GuildState) (category match_id : String)
    (user : Nat) (cfgMode : ModeValue) (now cleanup_at : String) : DeclineOutcome :=
  match get_match st.active category match_id with
  | none => .rejected "Match not found or already closed."
  | some m =>
    if ¬ m.status = "pending" then .rejected "This challenge is not awaiting your response."
    else if ¬ m.opponent_id = some user then .rejected "Only the challenged player can decline."
    else
      let info := normalize_mode_value (m.mode.getD cfgMode)
      let wm : ℝ := if info.type = "time" then 0.001 else ((info.target.getD 1 : ℤ) : ℝ)
      let lm : ℝ := if info.type = "time" then 30 else 0
      match complete_match st category match_id (m.challenger_id, wm) (user, lm)
          (some "Declined") cfgMode now cleanup_at with
      | .recorded st' => .forfeitRecorded st'
      | .error => .error

/-- Outcome of `handle_match_accept`. -/
inductive AcceptResult where
  | rejected (msg : String)
  | accepted (reg : Registry)

/-- Whether an `AcceptResult` is an acceptance. -/
def AcceptResult.isAccepted : AcceptResult → Prop
  | .accepted _ => True
  | .rejected _ => False

/-- Embedding of `LeaderboardCog.handle_match_accept` (pure core over the
registry). External inputs are parameters: `isParticipant` is the
role-membership check against the board config, `boardMode` is
`board_cfg.get("mode")`, `playersCat` / `removedCat` are the category's
roster and removed pool used by `get_player_rank`, and `now` the
acceptance timestamp. Guards run in source order: terminal status,
self-acceptance, participation, reserved opponent, the single-active-match
guard with its self-queue auto-cancel, the dead `open`-self arm, and the
rank-window check (skipped when `rank_range` is falsy or either rank is
missing). -/
noncomputable def handle_match_accept (reg : Registry) (category match_id : String)
    (user : Nat) (isParticipant : Bool) (boardMode : Option ModeValue)
    (playersCat : List (Nat × PlayerStats)) (removedCat : List Nat)
    (now : String) : AcceptResult :=
  match get_match reg category match_id with
  | none => .rejected "Match not found or already closed."
  | some m =>
    if m.status = "completed" ∨ m.status = "cancelled" then
      .rejected "This match is no longer active."
    else if user = m.challenger_id then
      .rejected "You cannot accept your own challenge."
    else if ¬ isParticipant then
      .rejected "You are not registered for this leaderboard."
    else if m.opponent_id.isSome ∧ ¬ m.opponent_id = some user then
      .rejected "This challenge is reserved for another player."
    else
      let afterCancel : Option Registry :=
        match find_active_match_for reg user (some match_id) with
        | none => some reg
        | some (c', m', d) =>
          if d.challenger_id = user ∧ (d.status = "open" ∨ d.status = "pending") then
            cancel_active_match reg c' m'
          else none
      match afterCancel with
      | none => .rejected "You already have an active challenge."
      | some reg1 =>
        if m.opponent_id = none ∧ user = m.challenger_id then
          .rejected "Waiting for another player to accept."
        else
          let rankReject : Bool :=
            match m.opponent_id, m.rank_range with
            | none, some r =>
              if r ≠ 0 then
                match get_player_rank playersCat removedCat m.challenger_id,
                      get_player_rank playersCat removedCat user with
                | some cr, some orr =>
                  decide (r < (((cr.1 : ℤ) - (orr.1 : ℤ)).natAbs : ℤ))
                | _, _ => false
              else false
            | _, _ => false
          if rankReject then
            .rejected "You must be within the rank window to accept."
          else
            let mode_payload := normalize_mode_value
              (m.mode.getD (boardMode.getD (.dict (some "speedrun") none)))
            let m1 := { m with
              opponent_id := if m.opponent_id = none then some user else m.opponent_id
              status := "awaiting_result"
              accepted_at := some now
              cancel_votes := []
              mode := some (modeDictOf mode_payload)
              response_deadline := none }
            .accepted (set_match reg1 category match_id m1)

/-- Outcome of the shared entry guards of `challenge_anyone` and
`challenge_opponent`; the challenge-creation path after the guards is
abstracted as `proceeds`. -/
inductive ChallengeOutcome where
  | rejected (msg : String)
  | proceeds

/-- Embedding of the entry guards of `LeaderboardCog.challenge_anyone`
(identical in `challenge_opponent`): configuration, participant role, then
outright rejection when the issuer already has any active match — with no
auto-cancel of the issuer's own open queue. -/
def challenge_entry_guard (reg : Registry) (user : Nat)
    (boardConfigured roleOk : Bool) : ChallengeOutcome :=
  if ¬ boardConfigured then .rejected "Leaderboard not configured."
  else if ¬ roleOk then .rejected "You need the participant role to issue challenges."
  else if (find_active_match_for reg user none).isSome then
    .rejected "You already have an active challenge."
  else .proceeds

/-! ## Association-list (dict) lemmas -/

lemma alistGet_alistSet_self {κ α : Type} [DecidableEq κ] (l : List (κ × α)) (k : κ) (v : α) :
    alistGet (alistSet l k v) k = some v := by
  induction l with
  | nil => simp [alistSet, alistGet]
  | cons p rest ih =>
    by_cases h : p.1 = k
    · simp [alistSet, alistGet, h]
    · simp only [alistSet, if_neg h]
      simpa [alistGet, List.find?, h] using ih

lemma alistGet_alistSet_ne {κ α : Type} [DecidableEq κ] (l : List (κ × α)) (k k' : κ) (v : α)
    (h : ¬ k = k') : alistGet (alistSet l k v) k' = alistGet l k' := by
  induction l with
  | nil => simp [alistSet, alistGet, List.find?, h]
  | cons p rest ih =>
    by_cases hp : p.1 = k
    · subst hp
      simp [alistSet, alistGet, List.find?, h]
    · simp only [alistSet, if_neg hp]
      by_cases hp' : p.1 = k'
      · simp [alistGet, List.find?, hp']
      · simpa [alistGet, List.find?, hp'] using ih

lemma alistGet_alistSetDefault_self {κ α : Type} [DecidableEq κ]
    (l : List (κ × α)) (k : κ) (v : α) :
    alistGet (alistSetDefault l k v) k = some ((alistGet l k).getD v) := by
  unfold alistSetDefault
  by_cases h : (alistGet l k).isSome
  · rw [if_pos h]
    obtain ⟨w, hw⟩ := Option.isSome_iff_exists.mp h
    simp [hw]
  · rw [if_neg h]
    have hnone : alistGet l k = none := Option.not_isSome_iff_eq_none.mp h
    have hfind : l.find? (fun p => p.1 = k) = none := by
      unfold alistGet at hnone
      exact Option.map_eq_none'.mp hnone
    unfold alistGet
    rw [List.find?_append, hfind]
    simp [hnone, List.find?]

lemma alistGet_alistSetDefault_ne {κ α : Type} [DecidableEq κ]
    (l : List (κ × α)) (k k' : κ) (v : α) (h : ¬ k = k') :
    alistGet (alistSetDefault l k v) k' = alistGet l k' := by
  unfold alistSetDefault
  split_ifs with hs
  · rfl
  · unfold alistGet
    rw [List.find?_append]
    cases hf : l.find? (fun p => p.1 = k') with
    | some w => simp [hf]
    | none => simp [hf, List.find?, h]

/-! ## Debounced save scheduling (claim C8) -/

/-- The observable state of one scope's debounced save scheduler: whether a
save task is in flight, the trailing-rerun flag, and how many save tasks
have been started. -/
structure SaverState where
  inflight : Bool
  pending : Bool
  writes : Nat
deriving DecidableEq, Repr

/-- Events driving a save scheduler: a mutation scheduling a save, and an
in-flight save task completing (its done-callback running). -/
inductive SaveEvent where
  | schedule
  | complete
deriving DecidableEq, Repr

/-- Embedding of `_schedule_config_save` together with its `_cleanup`
done-callback: a schedule during an in-flight save sets
`_config_save_pending`; on completion the pending flag triggers exactly
one re-scheduled save. -/
def config_save_step (s : SaverState) : SaveEvent → SaverState
  | .schedule =>
    if s.inflight then ⟨s.inflight, true, s.writes⟩
    else ⟨true, s.pending, s.writes + 1⟩
  | .complete =>
    if s.inflight then
      (if s.pending then ⟨true, false, s.writes + 1⟩ else ⟨false, s.pending, s.writes⟩)
    else s

/-- Embedding of `_schedule_active_fights_save` together with its
`_cleanup` done-callback: a schedule during an in-flight save returns
without recording anything, and completion merely clears the task — there
is no pending flag and no trailing re-run. -/
def fights_save_step (s : SaverState) : SaveEvent → SaverState
  | .schedule =>
    if s.inflight then s else ⟨true, s.pending, s.writes + 1⟩
  | .complete =>
    if s.inflight then ⟨false, s.pending, s.writes⟩ else s

/-- Run a save scheduler over an event trace. -/
def runSaver (step : SaverState → SaveEvent → SaverState) (s : SaverState)
    (es : List SaveEvent) : SaverState :=
  es.foldl step s

/-- The idle scheduler state: no task in flight, nothing pending. -/
def idleSaver : SaverState := ⟨false, false, 0⟩

lemma config_save_replicate (p : Bool) (w n : ℕ) :
    List.foldl config_save_step ⟨true, p, w⟩ (List.replicate n .schedule) =
      ⟨true, if n = 0 then p else true, w⟩ := by
  induction n generalizing p with
  | zero => rfl
  | succ n ih =>
    rw [List.replicate_succ, List.foldl_cons]
    have hstep : config_save_step ⟨true, p, w⟩ .schedule = ⟨true, true, w⟩ := rfl
    rw [hstep, ih]
    simp

lemma fights_save_replicate (p : Bool) (w n : ℕ) :
    List.foldl fights_save_step ⟨true, p, w⟩ (List.replicate n .schedule) =
      ⟨true, p, w⟩ := by
  induction n with
  | zero => rfl
  | succ n ih =>
    rw [List.replicate_succ, List.foldl_cons]
    have hstep : fights_save_step ⟨true, p, w⟩ .schedule = ⟨true, p, w⟩ := rfl
    rw [hstep, ih]

/-- C8 (counterexample): the active-fights scheduler has no pending flag.
After a schedule, a second schedule during the in-flight save, and the
save's completion, the guild-config scheduler has started the claimed
trailing re-run (2 writes, one in flight), but the active-fights scheduler
has started only the single original write and is idle — the burst's later
mutation is never rewritten. -/
theorem save_scheduler_c8_counterexample :
    runSaver fights_save_step idleSaver [.schedule, .schedule, .complete] =
      ⟨false, false, 1⟩ ∧
    runSaver config_save_step idleSaver [.schedule, .schedule, .complete] =
      ⟨true, false, 2⟩ :=
  ⟨rfl, rfl⟩

/-- C8 (amended): the claimed single-flight-with-trailing-rerun behaviour
holds for the guild-config scope only. For any burst of `n` further
schedules while a save is in flight, the guild-config scheduler performs
exactly one trailing extra write after the in-flight save completes (2
writes total when `n ≥ 1`); the active-fights scheduler drops every
schedule arriving during the in-flight save and performs no trailing
write (1 write total). -/
theorem save_scheduler_coalescing (n : ℕ) :
    runSaver config_save_step idleSaver
        (.schedule :: (List.replicate n .schedule ++ [.complete, .complete])) =
      ⟨false, false, if n = 0 then 1 else 2⟩ ∧
    runSaver fights_save_step idleSaver
        (.schedule :: (List.replicate n .schedule ++ [.complete, .complete])) =
      ⟨false, false, 1⟩ := by
  constructor
  · show List.foldl config_save_step idleSaver _ = _
    rw [List.foldl_cons]
    have h0 : config_save_step idleSaver .schedule = ⟨true, false, 1⟩ := rfl
    rw [h0, List.foldl_append, config_save_replicate]
    by_cases hn : n = 0 <;> simp [hn] <;> rfl
  · show List.foldl fights_save_step idleSaver _ = _
    rw [List.foldl_cons]
    have h0 : fights_save_step idleSaver .schedule = ⟨true, false, 1⟩ := rfl
    rw [h0, List.foldl_append, fights_save_replicate]
    rfl

/-! ## Rating transfer on completion (claim C3) -/

/-- The category's roster as read by `complete_match`
(`load_players_for`, in-memory part). -/
def playersOf (st : GuildState) (category : String) : List (Nat × PlayerStats) :=
  (alistGet st.players (normalize_category category)).getD []

/-- A player's rating in a state, defaulting to the lazily-created
record's `DEFAULT_START_ELO`. -/
def eloOf (st : GuildState) (category : String) (uid : Nat) : ℝ :=
  ((alistGet (playersOf st category) uid).getD defaultStats).elo

/-- The winner metric actually used by `complete_match`: unchanged in time
mode, raised to the mode's target in score mode when below it. -/
noncomputable def completionWinnerMetric (info : ModeInfo) (wm0 : ℝ) : ℝ :=
  if info.type = "time" then wm0
  else if wm0 < ((info.target.getD 1 : ℤ) : ℝ) then ((info.target.getD 1 : ℤ) : ℝ)
  else wm0

lemma pyInt_intCast (t : ℤ) : pyInt ((t : ℤ) : ℝ) = t := by
  unfold pyInt
  split_ifs <;> simp

/-- The winner value recorded by `complete_match` (the number rendered by
`winner_value`): the metric in time mode, the target when clamped, else
the truncated metric. -/
noncomputable def completionWinnerValue (info : ModeInfo) (wm0 : ℝ) : ℝ :=
  if info.type = "time" then wm0
  else if wm0 < ((info.target.getD 1 : ℤ) : ℝ) then ((info.target.getD 1 : ℤ) : ℝ)
  else ((pyInt wm0 : ℤ) : ℝ)

/-- The loser value recorded by `complete_match`. -/
noncomputable def completionLoserValue (info : ModeInfo) (lm0 : ℝ) : ℝ :=
  if info.type = "time" then lm0 else ((pyInt lm0 : ℤ) : ℝ)

/-- The rating delta computed inside `complete_match`: the rating engine
applied to the pre-completion ratings and the (possibly clamped) winner
metric. -/
noncomputable def completionDelta (st : GuildState) (cat : String) (info : ModeInfo)
    (wid lid : Nat) (wm0 lm0 : ℝ) : ℝ :=
  compute_elo_change (modeDictOf info) (eloOf st cat wid) (eloOf st cat lid)
    (completionWinnerMetric info wm0) lm0

/-- Master description of a successful `complete_match` with distinct
winner and loser: the new ratings and the two appended history rows. -/
lemma complete_match_spec
    (st : GuildState) (cat mid : String) (wid lid : Nat) (wm0 lm0 : ℝ)
    (notes : Option String) (cfgMode : ModeValue) (now cl : String)
    (m : MatchData) (st' : GuildState)
    (hm : get_match st.active cat mid = some m)
    (hne : ¬ wid = lid)
    (hcomp : complete_match st cat mid (wid, wm0) (lid, lm0) notes cfgMode now cl =
      .recorded st') :
    let info := normalize_mode_value (m.mode.getD cfgMode)
    let delta := completionDelta st cat info wid lid wm0 lm0
    eloOf st' cat wid = max 0 (eloOf st cat wid + delta) ∧
    eloOf st' cat lid = max 0 (eloOf st cat lid - delta) ∧
    st'.history = st.history ++
      [⟨wid, now, lid, decide (wid = m.challenger_id),
         completionWinnerValue info wm0, completionLoserValue info lm0, "Win", delta⟩,
       ⟨lid, now, wid, decide (lid = m.challenger_id),
         completionLoserValue info lm0, completionWinnerValue info wm0, "Loss",
         -delta⟩] := by
  intro info delta
  have hne' : ¬ lid = wid := fun h => hne h.symm
  have Hset_wl : ∀ (l : List (Nat × PlayerStats)) v,
      alistGet (alistSet l wid v) lid = alistGet l lid :=
    fun l v => alistGet_alistSet_ne l wid lid v hne
  have Hset_lw : ∀ (l : List (Nat × PlayerStats)) v,
      alistGet (alistSet l lid v) wid = alistGet l wid :=
    fun l v => alistGet_alistSet_ne l lid wid v hne'
  have Hdef_wl : ∀ (l : List (Nat × PlayerStats)) v,
      alistGet (alistSetDefault l wid v) lid = alistGet l lid :=
    fun l v => alistGet_alistSetDefault_ne l wid lid v hne
  have Hdef_lw : ∀ (l : List (Nat × PlayerStats)) v,
      alistGet (alistSetDefault l lid v) wid = alistGet l wid :=
    fun l v => alistGet_alistSetDefault_ne l lid wid v hne'
  simp only [complete_match, hm] at hcomp
  rw [CompleteOutcome.recorded.injEq] at hcomp
  subst hcomp
  have hwm1 : (if (normalize_mode_value (m.mode.getD cfgMode)).type = "time" then (wm0, wm0)
      else if wm0 < (((normalize_mode_value (m.mode.getD cfgMode)).target.getD 1 : ℤ) : ℝ) then
        ((((normalize_mode_value (m.mode.getD cfgMode)).target.getD 1 : ℤ) : ℝ),
         (((normalize_mode_value (m.mode.getD cfgMode)).target.getD 1 : ℤ) : ℝ))
      else (wm0, ((pyInt wm0 : ℤ) : ℝ))).1 = completionWinnerMetric info wm0 := by
    unfold completionWinnerMetric
    split_ifs <;> rfl
  have hwm2 : (if (normalize_mode_value (m.mode.getD cfgMode)).type = "time" then (wm0, wm0)
      else if wm0 < (((normalize_mode_value (m.mode.getD cfgMode)).target.getD 1 : ℤ) : ℝ) then
        ((((normalize_mode_value (m.mode.getD cfgMode)).target.getD 1 : ℤ) : ℝ),
         (((normalize_mode_value (m.mode.getD cfgMode)).target.getD 1 : ℤ) : ℝ))
      else (wm0, ((pyInt wm0 : ℤ) : ℝ))).2 = completionWinnerValue info wm0 := by
    unfold completionWinnerValue
    split_ifs <;> rfl
  have hlv : (if (normalize_mode_value (m.mode.getD cfgMode)).type = "time" then lm0
      else ((pyInt lm0 : ℤ) : ℝ)) = completionLoserValue info lm0 := rfl
  simp only [eloOf, playersOf, alistGet_alistSet_self, Option.getD_some,
    Hset_wl, Hset_lw, Hdef_wl, Hdef_lw, alistGet_alistSetDefault_self,
    hwm1, hwm2, hlv, completionDelta]
  exact ⟨rfl, rfl, rfl⟩

lemma alistPop_alistSet {κ α : Type} [DecidableEq κ] (l : List (κ × α)) (k : κ) (v : α) :
    alistPop (alistSet l k v) k = alistPop l k := by
  induction l with
  | nil => simp [alistSet, alistPop]
  | cons p rest ih =>
    by_cases h : p.1 = k
    · simp [alistSet, alistPop, h]
    · simp [alistSet, alistPop, h, ih]

lemma alistGet_alistPop_nodup {κ α : Type} [DecidableEq κ] (l : List (κ × α)) (k : κ)
    (hnd : (l.map Prod.fst).Nodup) : alistGet (alistPop l k) k = none := by
  induction l with
  | nil => simp [alistPop, alistGet]
  | cons p rest ih =>
    simp only [List.map_cons, List.nodup_cons] at hnd
    by_cases h : p.1 = k
    · subst h
      unfold alistPop
      rw [if_pos rfl]
      unfold alistGet
      cases hf : rest.find? (fun q => q.1 = p.1) with
      | none => simp [hf]
      | some w =>
        exfalso
        have hw := List.find?_some hf
        have hmem := List.mem_of_find?_eq_some hf
        have : w.1 ∈ rest.map Prod.fst := List.mem_map_of_mem Prod.fst hmem
        rw [decide_eq_true_eq] at hw
        rw [hw] at this
        exact hnd.1 this
    · unfold alistPop
      rw [if_neg h]
      unfold alistGet
      rw [List.find?_cons_of_neg _ (by simp [h])]
      have := ih hnd.2
      unfold alistGet at this
      exact this

/-- After a successful completion the match is gone from the active
registry (given unique match ids in its bucket). -/
lemma complete_match_removes
    (st : GuildState) (cat mid : String) (w_entry l_entry : Nat × ℝ)
    (notes : Option String) (cfgMode : ModeValue) (now cl : String) (st' : GuildState)
    (hnd : ((get_bucket st.active cat).matchesMap.map Prod.fst).Nodup)
    (hcomp : complete_match st cat mid w_entry l_entry notes cfgMode now cl =
      .recorded st') :
    get_match st'.active cat mid = none := by
  cases hm : get_match st.active cat mid with
  | none => simp [complete_match, hm] at hcomp
  | some m =>
    obtain ⟨wid, wm0⟩ := w_entry
    obtain ⟨lid, lm0⟩ := l_entry
    simp only [complete_match, hm] at hcomp
    rw [CompleteOutcome.recorded.injEq] at hcomp
    subst hcomp
    show get_match _ cat mid = none
    unfold get_match pop_match
    cases hth : m.thread_id with
    | none =>
      simp only [hth]
      unfold get_bucket set_match
      simp only [alistGet_alistSet_self, Option.getD_some]
      rw [alistPop_alistSet]
      exact alistGet_alistPop_nodup _ _ hnd
    | some t =>
      simp only [hth]
      unfold get_bucket schedule_thread_deletion set_match get_bucket
      simp only [alistGet_alistSet_self, Option.getD_some]
      rw [alistPop_alistSet]
      exact alistGet_alistPop_nodup _ _ hnd

/-- C3: for every match completion, with delta the rating-engine output on
the pre-completion ratings, the transfer is exactly symmetric except at
the loser's 0-floor: the winner gains exactly delta, and the loser loses
exactly delta unless `loserRatingBefore - delta < 0`, in which case the
loser's rating becomes 0. -/
theorem complete_match_rating_transfer
    (st : GuildState) (cat mid : String) (wid lid : Nat) (wm0 lm0 : ℝ)
    (notes : Option String) (cfgMode : ModeValue) (now cl : String)
    (m : MatchData) (st' : GuildState)
    (hm : get_match st.active cat mid = some m)
    (hne : ¬ wid = lid)
    (hw0 : 0 ≤ eloOf st cat wid)
    (hcomp : complete_match st cat mid (wid, wm0) (lid, lm0) notes cfgMode now cl =
      .recorded st') :
    let info := normalize_mode_value (m.mode.getD cfgMode)
    let delta := compute_elo_change (modeDictOf info)
      (eloOf st cat wid) (eloOf st cat lid)
      (completionWinnerMetric info wm0) lm0
    0 < delta ∧
    eloOf st' cat wid - eloOf st cat wid = delta ∧
    (¬ eloOf st cat lid - delta < 0 →
      eloOf st cat lid - eloOf st' cat lid = delta) ∧
    (eloOf st cat lid - delta < 0 → eloOf st' cat lid = 0) := by
  intro info delta
  have hne' : ¬ lid = wid := fun h => hne h.symm
  have Hset_wl : ∀ (l : List (Nat × PlayerStats)) v,
      alistGet (alistSet l wid v) lid = alistGet l lid :=
    fun l v => alistGet_alistSet_ne l wid lid v hne
  have Hset_lw : ∀ (l : List (Nat × PlayerStats)) v,
      alistGet (alistSet l lid v) wid = alistGet l wid :=
    fun l v => alistGet_alistSet_ne l lid wid v hne'
  have Hdef_wl : ∀ (l : List (Nat × PlayerStats)) v,
      alistGet (alistSetDefault l wid v) lid = alistGet l lid :=
    fun l v => alistGet_alistSetDefault_ne l wid lid v hne
  have Hdef_lw : ∀ (l : List (Nat × PlayerStats)) v,
      alistGet (alistSetDefault l lid v) wid = alistGet l wid :=
    fun l v => alistGet_alistSetDefault_ne l lid wid v hne'
  simp only [complete_match, hm] at hcomp
  rw [CompleteOutcome.recorded.injEq] at hcomp
  subst hcomp
  simp only [eloOf, playersOf, alistGet_alistSet_self, Option.getD_some,
    Hset_wl, Hset_lw, Hdef_wl, Hdef_lw, alistGet_alistSetDefault_self]
  have hwmv : (if (normalize_mode_value (m.mode.getD cfgMode)).type = "time" then (wm0, wm0)
      else if wm0 < (((normalize_mode_value (m.mode.getD cfgMode)).target.getD 1 : ℤ) : ℝ) then
        ((((normalize_mode_value (m.mode.getD cfgMode)).target.getD 1 : ℤ) : ℝ),
         (((normalize_mode_value (m.mode.getD cfgMode)).target.getD 1 : ℤ) : ℝ))
      else (wm0, ((pyInt wm0 : ℤ) : ℝ))).1 = completionWinnerMetric info wm0 := by
    unfold completionWinnerMetric
    split_ifs <;> rfl
  rw [hwmv]
  have hew : ((alistGet ((alistGet st.players (normalize_category cat)).getD []) wid).getD
      defaultStats).elo = eloOf st cat wid := rfl
  have hel : ((alistGet ((alistGet st.players (normalize_category cat)).getD []) lid).getD
      defaultStats).elo = eloOf st cat lid := rfl
  rw [hew, hel]
  have hd : compute_elo_change (modeDictOf (normalize_mode_value (m.mode.getD cfgMode)))
      (eloOf st cat wid) (eloOf st cat lid) (completionWinnerMetric info wm0) lm0 = delta := rfl
  rw [hd]
  have hpos : 0 < delta := compute_elo_change_pos _ _ _ _ _
  refine ⟨hpos, ?_, ?_, ?_⟩
  · rw [max_eq_right (by linarith : (0:ℝ) ≤ eloOf st cat wid + delta)]
    ring
  · intro h
    push_neg at h
    rw [max_eq_right (by linarith : (0:ℝ) ≤ eloOf st cat lid - delta)]
    ring
  · intro h
    rw [max_eq_left (by linarith : eloOf st cat lid - delta ≤ (0:ℝ))]

/-- A minimal concrete awaiting-result speedrun match between players 1
and 2, used by the completion witnesses. -/
def c3WitnessMatch : MatchData :=
  ⟨"m1", "cat", 1, some 2, "awaiting_result", none, none, none, none, "t0",
    none, some (.dict (some "speedrun") none), none, none, [], [], none⟩

/-- A minimal concrete guild state holding only `c3WitnessMatch`. -/
def c3WitnessState : GuildState :=
  ⟨[("cat", ⟨[("m1", c3WitnessMatch)], []⟩)], [], []⟩

/-- C3 (witness): the rating-transfer theorem applied to a concrete
completion of the speedrun match between players 1 (60 s) and 2 (62 s). -/
theorem complete_match_rating_transfer_witness :
    get_match c3WitnessState.active "cat" "m1" = some c3WitnessMatch ∧
    ¬ (1 : Nat) = 2 ∧
    0 ≤ eloOf c3WitnessState "cat" 1 ∧
    ∃ st', complete_match c3WitnessState "cat" "m1" (1, 60) (2, 62) none
        (.dict (some "speedrun") none) "t" "c" = .recorded st' ∧
      (let info := normalize_mode_value
        (c3WitnessMatch.mode.getD (.dict (some "speedrun") none))
       let delta := compute_elo_change (modeDictOf info)
         (eloOf c3WitnessState "cat" 1) (eloOf c3WitnessState "cat" 2)
         (completionWinnerMetric info 60) 62
       0 < delta ∧
       eloOf st' "cat" 1 - eloOf c3WitnessState "cat" 1 = delta ∧
       (¬ eloOf c3WitnessState "cat" 2 - delta < 0 →
         eloOf c3WitnessState "cat" 2 - eloOf st' "cat" 2 = delta) ∧
       (eloOf c3WitnessState "cat" 2 - delta < 0 → eloOf st' "cat" 2 = 0)) := by
  have hw0 : (0:ℝ) ≤ eloOf c3WitnessState "cat" 1 := by
    norm_num [eloOf, playersOf, alistGet, defaultStats, c3WitnessState]
  exact ⟨rfl, by decide, hw0,
    ⟨_, rfl, complete_match_rating_transfer c3WitnessState "cat" "m1" 1 2 60 62 none
      (.dict (some "speedrun") none) "t" "c" c3WitnessMatch _ rfl (by decide) hw0 rfl⟩⟩

/-! ## Score-mode winner-metric clamp (claim C10) -/

/-- C10: in score mode `complete_match` never records a winner metric
below the mode's target. Completing with a supplied winner metric below
the target behaves identically to completing with the target itself (the
metric is raised before the delta is computed), and the appended winner
history row records the target as the winner's value. -/
theorem complete_match_score_metric_clamp
    (st : GuildState) (cat mid : String) (wid : Nat) (wm0 : ℝ) (l_entry : Nat × ℝ)
    (notes : Option String) (cfgMode : ModeValue) (now cl : String) (m : MatchData)
    (hm : get_match st.active cat mid = some m)
    (hscore : ¬ (normalize_mode_value (m.mode.getD cfgMode)).type = "time")
    (hlt : wm0 < (((normalize_mode_value (m.mode.getD cfgMode)).target.getD 1 : ℤ) : ℝ)) :
    complete_match st cat mid (wid, wm0) l_entry notes cfgMode now cl =
      complete_match st cat mid
        (wid, (((normalize_mode_value (m.mode.getD cfgMode)).target.getD 1 : ℤ) : ℝ))
        l_entry notes cfgMode now cl ∧
    ∀ st', complete_match st cat mid (wid, wm0) l_entry notes cfgMode now cl =
        .recorded st' →
      ∃ rw rl, st'.history = st.history ++ [rw, rl] ∧
        rw.user_value =
          (((normalize_mode_value (m.mode.getD cfgMode)).target.getD 1 : ℤ) : ℝ) := by
  constructor
  · simp only [complete_match, hm, if_neg hscore, if_pos hlt, lt_self_iff_false,
      if_false, pyInt_intCast]
  · intro st' hcomp
    simp only [complete_match, hm] at hcomp
    rw [CompleteOutcome.recorded.injEq] at hcomp
    subst hcomp
    refine ⟨_, _, rfl, ?_⟩
    simp only [if_neg hscore, if_pos hlt]

/-- A concrete pending first-to-3 score match between players 1 and 2. -/
def c10WitnessMatch : MatchData :=
  ⟨"m1", "cat", 1, some 2, "awaiting_result", none, none, none, none, "t0",
    none, some (.dict (some "score") (some 3)), none, none, [], [], none⟩

/-- A concrete guild state holding only `c10WitnessMatch`. -/
def c10WitnessState : GuildState :=
  ⟨[("cat", ⟨[("m1", c10WitnessMatch)], []⟩)], [], []⟩

/-- C10 (witness): the clamp theorem applied to a concrete first-to-3
completion whose supplied winner metric 2 is below the target 3. -/
theorem complete_match_score_metric_clamp_witness :
    (get_match c10WitnessState.active "cat" "m1" = some c10WitnessMatch ∧
     ¬ (normalize_mode_value (c10WitnessMatch.mode.getD
        (.dict (some "score") (some 3)))).type = "time" ∧
     (2:ℝ) < (((normalize_mode_value (c10WitnessMatch.mode.getD
        (.dict (some "score") (some 3)))).target.getD 1 : ℤ) : ℝ)) ∧
    (complete_match c10WitnessState "cat" "m1" (1, 2) (2, 0) none
        (.dict (some "score") (some 3)) "t" "c" =
      complete_match c10WitnessState "cat" "m1"
        (1, (((normalize_mode_value (c10WitnessMatch.mode.getD
          (.dict (some "score") (some 3)))).target.getD 1 : ℤ) : ℝ)) (2, 0) none
        (.dict (some "score") (some 3)) "t" "c" ∧
     ∀ st', complete_match c10WitnessState "cat" "m1" (1, 2) (2, 0) none
         (.dict (some "score") (some 3)) "t" "c" = .recorded st' →
       ∃ rw rl, st'.history = c10WitnessState.history ++ [rw, rl] ∧
         rw.user_value = (((normalize_mode_value (c10WitnessMatch.mode.getD
           (.dict (some "score") (some 3)))).target.getD 1 : ℤ) : ℝ)) := by
  have hsc : ¬ (normalize_mode_value (c10WitnessMatch.mode.getD
      (.dict (some "score") (some 3)))).type = "time" := by decide
  have hlt : (2:ℝ) < (((normalize_mode_value (c10WitnessMatch.mode.getD
      (.dict (some "score") (some 3)))).target.getD 1 : ℤ) : ℝ) := by
    have ht : ((normalize_mode_value (c10WitnessMatch.mode.getD
        (.dict (some "score") (some 3)))).target.getD 1 : ℤ) = 3 := by decide
    rw [ht]
    norm_num
  exact ⟨⟨rfl, hsc, hlt⟩,
    complete_match_score_metric_clamp c10WitnessState "cat" "m1" 1 2 (2, 0) none
      (.dict (some "score") (some 3)) "t" "c" c10WitnessMatch rfl hsc hlt⟩

/-! ## Decline as forfeit completion (claim C5) -/

/-- The fixed sentinel winner metric used by `handle_match_decline`:
0.001 s in time mode (a winning time), the target in score mode. -/
noncomputable def declineWinnerMetric (info : ModeInfo) : ℝ :=
  if info.type = "time" then 0.001 else ((info.target.getD 1 : ℤ) : ℝ)

/-- The fixed sentinel loser metric used by `handle_match_decline`:
a 30 s penalty in time mode, 0 in score mode. -/
noncomputable def declineLoserMetric (info : ModeInfo) : ℝ :=
  if info.type = "time" then 30 else 0

lemma completionWinnerValue_decline (info : ModeInfo) :
    completionWinnerValue info (declineWinnerMetric info) = declineWinnerMetric info := by
  unfold completionWinnerValue declineWinnerMetric
  by_cases ht : info.type = "time"
  · simp [ht]
  · simp only [if_neg ht]
    rw [if_neg (lt_irrefl _), pyInt_intCast]

lemma completionLoserValue_decline (info : ModeInfo) :
    completionLoserValue info (declineLoserMetric info) = declineLoserMetric info := by
  unfold completionLoserValue declineLoserMetric
  have hz : pyInt (0:ℝ) = 0 := by
    unfold pyInt
    simp
  by_cases ht : info.type = "time" <;> simp [ht, hz]

/-- C5: a decline of a pending targeted challenge by its opponent is
recorded as an immediate forfeit completion, not a bare cancel: the
challenger wins with the winning sentinel metric, the decliner's recorded
loser value is the fixed sentinel (30 s in time mode, 0 in score mode —
e.g. a 3-0 loss at score target 3), and the corresponding rating delta is
applied to both ratings and written to the two appended history rows. -/
theorem handle_match_decline_forfeit
    (st : GuildState) (cat mid : String) (user : Nat)
    (cfgMode : ModeValue) (now cl : String) (m : MatchData)
    (hm : get_match st.active cat mid = some m)
    (hstatus : m.status = "pending")
    (hop : m.opponent_id = some user)
    (hne : ¬ m.challenger_id = user)
    (hw0 : 0 ≤ eloOf st cat m.challenger_id) :
    let info := normalize_mode_value (m.mode.getD cfgMode)
    let delta := completionDelta st cat info m.challenger_id user
      (declineWinnerMetric info) (declineLoserMetric info)
    ∃ st', 0 < delta ∧
      handle_match_decline st cat mid user cfgMode now cl = .forfeitRecorded st' ∧
      complete_match st cat mid (m.challenger_id, declineWinnerMetric info)
        (user, declineLoserMetric info) (some "Declined") cfgMode now cl =
        .recorded st' ∧
      eloOf st' cat m.challenger_id = eloOf st cat m.challenger_id + delta ∧
      eloOf st' cat user = max 0 (eloOf st cat user - delta) ∧
      ∃ rw rl, st'.history = st.history ++ [rw, rl] ∧
        rw.user_id = m.challenger_id ∧ rw.result = "Win" ∧ rw.elo_change = delta ∧
        rw.user_value = declineWinnerMetric info ∧
        rl.user_id = user ∧ rl.result = "Loss" ∧ rl.elo_change = -delta ∧
        rl.user_value = declineLoserMetric info := by
  intro info delta
  have hnstat : ¬ (¬ m.status = "pending") := fun h => h hstatus
  have hnop : ¬ (¬ m.opponent_id = some user) := fun h => h hop
  have hcm : ∃ stX, complete_match st cat mid (m.challenger_id, declineWinnerMetric info)
      (user, declineLoserMetric info) (some "Declined") cfgMode now cl =
      .recorded stX := by
    simp only [complete_match, hm]
    exact ⟨_, rfl⟩
  obtain ⟨stX, hcm⟩ := hcm
  have hdecl : handle_match_decline st cat mid user cfgMode now cl =
      .forfeitRecorded stX := by
    simp only [handle_match_decline, hm, if_neg hnstat, if_neg hnop]
    rw [show complete_match st cat mid
      (m.challenger_id, if (normalize_mode_value (m.mode.getD cfgMode)).type = "time"
        then (0.001 : ℝ)
        else (((normalize_mode_value (m.mode.getD cfgMode)).target.getD 1 : ℤ) : ℝ))
      (user, if (normalize_mode_value (m.mode.getD cfgMode)).type = "time"
        then (30 : ℝ) else 0)
      (some "Declined") cfgMode now cl = .recorded stX from hcm]
  obtain ⟨h1, h2, h3⟩ := complete_match_spec st cat mid m.challenger_id user
    (declineWinnerMetric info) (declineLoserMetric info) (some "Declined")
    cfgMode now cl m stX hm hne hcm
  have hpos : 0 < delta := compute_elo_change_pos _ _ _ _ _
  rw [max_eq_right (by linarith : (0:ℝ) ≤ eloOf st cat m.challenger_id + delta)] at h1
  exact ⟨stX, hpos, hdecl, hcm, h1, h2, _, _, h3, rfl, rfl, rfl,
    completionWinnerValue_decline info, rfl, rfl, rfl,
    completionLoserValue_decline info⟩

/-- A concrete pending first-to-3 targeted challenge from player 1 to
player 2. -/
def c5WitnessMatch : MatchData :=
  ⟨"m1", "cat", 1, some 2, "pending", none, none, none, none, "t0",
    none, some (.dict (some "score") (some 3)), none, none, [], [], none⟩

/-- A concrete guild state holding only `c5WitnessMatch`. -/
def c5WitnessState : GuildState :=
  ⟨[("cat", ⟨[("m1", c5WitnessMatch)], []⟩)], [], []⟩

/-- C5 (witness): the decline-forfeit theorem applied to player 2
declining the concrete first-to-3 challenge from player 1. -/
theorem handle_match_decline_forfeit_witness :
    (get_match c5WitnessState.active "cat" "m1" = some c5WitnessMatch ∧
     c5WitnessMatch.status = "pending" ∧
     c5WitnessMatch.opponent_id = some 2 ∧
     ¬ c5WitnessMatch.challenger_id = 2 ∧
     0 ≤ eloOf c5WitnessState "cat" c5WitnessMatch.challenger_id) ∧
    (let info := normalize_mode_value
      (c5WitnessMatch.mode.getD (.dict (some "score") (some 3)))
     let delta := completionDelta c5WitnessState "cat" info
       c5WitnessMatch.challenger_id 2 (declineWinnerMetric info) (declineLoserMetric info)
     ∃ st', 0 < delta ∧
      handle_match_decline c5WitnessState "cat" "m1" 2
        (.dict (some "score") (some 3)) "t" "c" = .forfeitRecorded st' ∧
      complete_match c5WitnessState "cat" "m1"
        (c5WitnessMatch.challenger_id, declineWinnerMetric info)
        (2, declineLoserMetric info) (some "Declined")
        (.dict (some "score") (some 3)) "t" "c" = .recorded st' ∧
      eloOf st' "cat" c5WitnessMatch.challenger_id =
        eloOf c5WitnessState "cat" c5WitnessMatch.challenger_id + delta ∧
      eloOf st' "cat" 2 = max 0 (eloOf c5WitnessState "cat" 2 - delta) ∧
      ∃ rw rl, st'.history = c5WitnessState.history ++ [rw, rl] ∧
        rw.user_id = c5WitnessMatch.challenger_id ∧ rw.result = "Win" ∧
        rw.elo_change = delta ∧ rw.user_value = declineWinnerMetric info ∧
        rl.user_id = 2 ∧ rl.result = "Loss" ∧ rl.elo_change = -delta ∧
        rl.user_value = declineLoserMetric info) := by
  have hw0 : (0:ℝ) ≤ eloOf c5WitnessState "cat" c5WitnessMatch.challenger_id := by
    norm_num [eloOf, playersOf, alistGet, defaultStats, c5WitnessState]
  exact ⟨⟨rfl, rfl, rfl, by decide, hw0⟩,
    handle_match_decline_forfeit c5WitnessState "cat" "m1" 2
      (.dict (some "score") (some 3)) "t" "c" c5WitnessMatch rfl rfl rfl
      (by decide) hw0⟩

/-! ## Result submission and finalization (claim C4) -/

lemma get_match_set_match_self (reg : Registry) (cat mid : String) (m : MatchData) :
    get_match (set_match reg cat mid m) cat mid = some m := by
  unfold get_match set_match get_bucket
  rw [alistGet_alistSet_self]
  simp [alistGet_alistSet_self]

lemma alistSet_map_fst {κ α : Type} [DecidableEq κ] (l : List (κ × α)) (k : κ) (v : α) :
    (alistSet l k v).map Prod.fst =
      if k ∈ l.map Prod.fst then l.map Prod.fst else l.map Prod.fst ++ [k] := by
  induction l with
  | nil => simp [alistSet]
  | cons p rest ih =>
    by_cases hp : p.1 = k
    · subst hp
      simp [alistSet]
    · have hp' : ¬ k = p.1 := fun h => hp h.symm
      simp only [alistSet, if_neg hp, List.map_cons, ih]
      by_cases hk : k ∈ rest.map Prod.fst
      · simp [hk, List.mem_cons, hp']
      · simp [hk, List.mem_cons, hp']

lemma alistSet_keys_nodup {κ α : Type} [DecidableEq κ] (l : List (κ × α)) (k : κ) (v : α)
    (h : (l.map Prod.fst).Nodup) : ((alistSet l k v).map Prod.fst).Nodup := by
  rw [alistSet_map_fst]
  split_ifs with hk
  · exact h
  · simp [List.nodup_append, h, hk]

lemma get_bucket_set_match (reg : Registry) (cat mid : String) (m : MatchData) :
    get_bucket (set_match reg cat mid m) cat =
      { get_bucket reg cat with
        matchesMap := alistSet (get_bucket reg cat).matchesMap mid m } := by
  unfold set_match get_bucket
  rw [alistGet_alistSet_self]
  rfl

/-- C4: on an awaiting-result match where the other participant has
already submitted, a valid submission by this participant resolves the
match. If the two submissions have the same kind, the match transitions to
`disputed` with no change to ratings or history; if they have opposite
kinds, the match is completed: the win-submitter beats the loss-submitter,
the rating transfer is applied, two history rows are appended, and the
match is removed from the active registry. -/
theorem submit_resolution
    (st : GuildState) (user other : Nat) (kind : String) (value : RawValue)
    (cfgMode : ModeValue) (now cl : String) (cat mid : String) (m : MatchData)
    (orec : Submission) (mv : ℝ × ℝ)
    (hfind : find_active_match_for st.active user none = some (cat, mid, m))
    (hst : m.status = "awaiting_result")
    (hother : (if m.challenger_id = user then m.opponent_id else some m.challenger_id) =
      some other)
    (hsubs : m.submissions = [(toString other, orec)])
    (hko : pyStrToNat (toString other) = some other)
    (hku : pyStrToNat (toString user) = some user)
    (hkey : ¬ toString other = toString user)
    (hneu : ¬ user = other)
    (hparse : submitParse (normalize_mode_value (m.mode.getD cfgMode)) kind value =
      some mv)
    (hnd : ((get_bucket st.active cat).matchesMap.map Prod.fst).Nodup)
    (hkinds : orec.kind = "win" ∨ orec.kind = "loss") :
    (orec.kind = (if kind = "win" then "win" else "loss") →
      ∃ st' m', submit_match_result st user kind value cfgMode now cl = .disputed st' ∧
        get_match st'.active cat mid = some m' ∧ m'.status = "disputed" ∧
        st'.players = st.players ∧ st'.history = st.history) ∧
    (¬ orec.kind = (if kind = "win" then "win" else "loss") →
      ∃ st', submit_match_result st user kind value cfgMode now cl = .completed st' ∧
        get_match st'.active cat mid = none ∧
        ∃ rw rl, st'.history = st.history ++ [rw, rl] ∧
          rw.result = "Win" ∧ rl.result = "Loss" ∧
          rw.elo_change = -rl.elo_change ∧ 0 < rw.elo_change ∧
          rw.user_id = (if kind = "win" then user else other) ∧
          rl.user_id = (if kind = "win" then other else user) ∧
          eloOf st' cat rw.user_id = max 0 (eloOf st cat rw.user_id + rw.elo_change) ∧
          eloOf st' cat rl.user_id = max 0 (eloOf st cat rl.user_id - rw.elo_change)) := by
  have hnst : ¬ (¬ (m.status = "awaiting_result" ∨ m.status = "pending")) :=
    fun h => h (Or.inl hst)
  simp only [submit_match_result, hfind, if_neg hnst, hparse, hother, hsubs]
  set SUB : Submission := ⟨if kind = "win" then "win" else "loss", mv.2, mv.1, some now⟩
    with hSUB
  have hsetsub : alistSet [(toString other, orec)] (toString user) SUB =
      [(toString other, orec), (toString user, SUB)] := by
    simp [alistSet, hkey]
  have hgetother : alistGet [(toString other, orec), (toString user, SUB)]
      (toString other) = some orec := by
    simp [alistGet, List.find?]
  rw [hsetsub]
  simp only [Option.some_bind, hgetother]
  constructor
  · intro hsame
    rw [if_pos hsame]
    refine ⟨_, _, rfl, get_match_set_match_self _ _ _ _, rfl, rfl, rfl⟩
  · intro hdiff
    rw [if_neg hdiff]
    have hm1 : get_match (set_match st.active cat mid
        { m with submissions := [(toString other, orec), (toString user, SUB)] })
        cat mid = some { m with
          submissions := [(toString other, orec), (toString user, SUB)] } :=
      get_match_set_match_self _ _ _ _
    have hnd1 : ((get_bucket (set_match st.active cat mid
        { m with submissions := [(toString other, orec), (toString user, SUB)] })
        cat).matchesMap.map Prod.fst).Nodup := by
      rw [get_bucket_set_match]
      exact alistSet_keys_nodup _ _ _ hnd
    have hpick : ∀ k, pickEntry [(toString other, orec), (toString user, SUB)] k =
        (if SUB.kind = k then some (user, SUB)
         else if orec.kind = k then some (other, orec) else none) := by
      intro k
      by_cases h1 : orec.kind = k <;> by_cases h2 : SUB.kind = k <;>
        simp [pickEntry, hko, hku, h1, h2]
    simp only [finalize_match_from_submissions, hm1, hpick]
    by_cases hkw : kind = "win"
    · have hSUBk : SUB.kind = "win" := by
        rw [hSUB]
        simp [hkw]
      have horecl : orec.kind = "loss" := by
        refine hkinds.resolve_left ?_
        rw [if_pos hkw] at hdiff
        exact hdiff
      have hSUBnl : ¬ SUB.kind = "loss" := by
        rw [hSUBk]
        decide
      rw [if_pos hSUBk, if_neg hSUBnl, if_pos horecl]
      obtain ⟨stB, hcomp⟩ : ∃ stB, complete_match
          { st with
              active := set_match st.active cat mid
                { m with
                    submissions := [(toString other, orec), (toString user, SUB)] } }
          cat mid (user, SUB.metric) (other, orec.metric) none cfgMode now cl =
          .recorded stB := by
        simp only [complete_match, hm1]
        exact ⟨_, rfl⟩
      simp only [hcomp]
      obtain ⟨h1, h2, h3⟩ := complete_match_spec _ cat mid user other SUB.metric
        orec.metric none cfgMode now cl _ stB hm1 hneu hcomp
      refine ⟨stB, rfl, complete_match_removes _ cat mid _ _ none cfgMode now cl stB
        hnd1 hcomp, _, _, h3, rfl, rfl, by simp, compute_elo_change_pos _ _ _ _ _,
        ?_, ?_, h1, h2⟩
      · rw [if_pos hkw]
      · rw [if_pos hkw]
    · have hSUBk : SUB.kind = "loss" := by
        rw [hSUB]
        simp [hkw]
      have horecw : orec.kind = "win" := by
        refine hkinds.resolve_right ?_
        rw [if_neg hkw] at hdiff
        exact hdiff
      have hSUBnw : ¬ SUB.kind = "win" := by
        rw [hSUBk]
        decide
      have hneu' : ¬ other = user := fun h => hneu h.symm
      rw [if_neg hSUBnw, if_pos horecw, if_pos hSUBk]
      obtain ⟨stB, hcomp⟩ : ∃ stB, complete_match
          { st with
              active := set_match st.active cat mid
                { m with
                    submissions := [(toString other, orec), (toString user, SUB)] } }
          cat mid (other, orec.metric) (user, SUB.metric) none cfgMode now cl =
          .recorded stB := by
        simp only [complete_match, hm1]
        exact ⟨_, rfl⟩
      simp only [hcomp]
      obtain ⟨h1, h2, h3⟩ := complete_match_spec _ cat mid other user orec.metric
        SUB.metric none cfgMode now cl _ stB hm1 hneu' hcomp
      refine ⟨stB, rfl, complete_match_removes _ cat mid _ _ none cfgMode now cl stB
        hnd1 hcomp, _, _, h3, rfl, rfl, by simp, compute_elo_change_pos _ _ _ _ _,
        ?_, ?_, h1, h2⟩
      · rw [if_neg hkw]
      · rw [if_neg hkw]

/-- A concrete awaiting-result speedrun match between challenger 1 and
opponent 2 where player 1 has already submitted a 55 s win. -/
def c4WitnessMatch : MatchData :=
  ⟨"m1", "cat", 1, some 2, "awaiting_result", none, none, none, none, "t0",
    none, some (.dict (some "speedrun") none), none, none,
    [(toString (1:Nat), ⟨"win", 55, 55, none⟩)], [], none⟩

/-- A concrete guild state holding only `c4WitnessMatch`. -/
def c4WitnessState : GuildState :=
  ⟨[("cat", ⟨[("m1", c4WitnessMatch)], []⟩)], [], []⟩

/-- C4 (witness): the resolution theorem applied to player 2 submitting a
58 s loss against player 1's earlier 55 s win submission. -/
theorem submit_resolution_witness :
    (find_active_match_for c4WitnessState.active 2 none =
      some ("cat", "m1", c4WitnessMatch) ∧
     c4WitnessMatch.status = "awaiting_result" ∧
     (if c4WitnessMatch.challenger_id = 2 then c4WitnessMatch.opponent_id
      else some c4WitnessMatch.challenger_id) = some 1 ∧
     c4WitnessMatch.submissions = [(toString (1:Nat), ⟨"win", 55, 55, none⟩)] ∧
     pyStrToNat (toString (1:Nat)) = some 1 ∧
     pyStrToNat (toString (2:Nat)) = some 2 ∧
     ¬ toString (1:Nat) = toString (2:Nat) ∧
     ¬ (2:Nat) = 1 ∧
     submitParse (normalize_mode_value (c4WitnessMatch.mode.getD
       (.dict (some "speedrun") none))) "loss" (.time 58) = some (58, 58) ∧
     ((get_bucket c4WitnessState.active "cat").matchesMap.map Prod.fst).Nodup ∧
     (Submission.kind ⟨"win", 55, 55, none⟩ = "win" ∨
      Submission.kind ⟨"win", 55, 55, none⟩ = "loss")) ∧
    ((Submission.kind ⟨"win", 55, 55, none⟩ =
        (if "loss" = "win" then "win" else "loss") →
      ∃ st' m', submit_match_result c4WitnessState 2 "loss" (.time 58)
          (.dict (some "speedrun") none) "t" "c" = .disputed st' ∧
        get_match st'.active "cat" "m1" = some m' ∧ m'.status = "disputed" ∧
        st'.players = c4WitnessState.players ∧ st'.history = c4WitnessState.history) ∧
     (¬ Submission.kind ⟨"win", 55, 55, none⟩ =
        (if "loss" = "win" then "win" else "loss") →
      ∃ st', submit_match_result c4WitnessState 2 "loss" (.time 58)
          (.dict (some "speedrun") none) "t" "c" = .completed st' ∧
        get_match st'.active "cat" "m1" = none ∧
        ∃ rw rl, st'.history = c4WitnessState.history ++ [rw, rl] ∧
          rw.result = "Win" ∧ rl.result = "Loss" ∧
          rw.elo_change = -rl.elo_change ∧ 0 < rw.elo_change ∧
          rw.user_id = (if "loss" = "win" then 2 else 1) ∧
          rl.user_id = (if "loss" = "win" then 1 else 2) ∧
          eloOf st' "cat" rw.user_id =
            max 0 (eloOf c4WitnessState "cat" rw.user_id + rw.elo_change) ∧
          eloOf st' "cat" rl.user_id =
            max 0 (eloOf c4WitnessState "cat" rl.user_id - rw.elo_change))) := by
  have hparse : submitParse (normalize_mode_value (c4WitnessMatch.mode.getD
      (.dict (some "speedrun") none))) "loss" (.time 58) = some (58, 58) := by
    have ht : (normalize_mode_value (c4WitnessMatch.mode.getD
        (.dict (some "speedrun") none))).type = "time" := rfl
    simp only [submitParse, ht, if_pos rfl]
    norm_num
  refine ⟨⟨rfl, rfl, by decide, rfl, by decide, by decide, by decide, by decide,
    hparse, by decide, Or.inl rfl⟩, ?_⟩
  exact submit_resolution c4WitnessState 2 1 "loss" (.time 58)
    (.dict (some "speedrun") none) "t" "c" "cat" "m1" c4WitnessMatch
    ⟨"win", 55, 55, none⟩ (58, 58) rfl rfl (by decide) rfl (by decide) (by decide)
    (by decide) (by decide) hparse (by decide) (Or.inl rfl)

/-! ## Rank-window gating on acceptance (claim C9) -/

/-- C9: when accepting an open challenge with a rank window set, the
window check is only enforced if both the challenger and the acceptor
currently have a rank; if either is unranked the acceptance succeeds with
no rank-window restriction. -/
theorem accept_rank_window_needs_both_ranks
    (reg : Registry) (cat mid : String) (user : Nat)
    (boardMode : Option ModeValue) (playersCat : List (Nat × PlayerStats))
    (removedCat : List Nat) (now : String) (m : MatchData) (r : Int)
    (hm : get_match reg cat mid = some m)
    (hst : ¬ (m.status = "completed" ∨ m.status = "cancelled"))
    (hch : ¬ user = m.challenger_id)
    (hop : m.opponent_id = none)
    (hfind : find_active_match_for reg user (some mid) = none)
    (hrr : m.rank_range = some r)
    (hunranked : get_player_rank playersCat removedCat m.challenger_id = none ∨
      get_player_rank playersCat removedCat user = none) :
    (handle_match_accept reg cat mid user true boardMode playersCat removedCat
      now).isAccepted := by
  simp only [handle_match_accept, hm, hop, hrr, hfind]
  rw [if_neg hst, if_neg hch]
  rw [if_neg (show ¬ ¬ True by simp)]
  rw [if_neg (show ¬ ((Option.isSome (none : Option Nat)) = true ∧
    ¬ (none : Option Nat) = some user) by simp)]
  rw [if_neg (show ¬ (True ∧ user = m.challenger_id) by simp [hch])]
  have hrb : ¬ ((if r ≠ 0 then
      (match get_player_rank playersCat removedCat m.challenger_id,
             get_player_rank playersCat removedCat user with
       | some cr, some orr => decide (r < (((cr.1 : ℤ) - (orr.1 : ℤ)).natAbs : ℤ))
       | _, _ => false)
    else false) = true) := by
    by_cases hr : r ≠ 0
    · rw [if_pos hr]
      cases hc : get_player_rank playersCat removedCat m.challenger_id <;>
        cases ho : get_player_rank playersCat removedCat user <;>
        simp_all
    · rw [if_neg hr]
      simp
  rw [if_neg hrb]
  exact trivial

/-- A concrete open rank-range-3 challenge by player 1. -/
def c9WitnessMatch : MatchData :=
  ⟨"m1", "cat", 1, none, "open", none, none, none, none, "t0",
    some 3, some (.dict (some "speedrun") none), none, none, [], [], none⟩

/-- A registry holding only `c9WitnessMatch`. -/
def c9WitnessReg : Registry := [("cat", ⟨[("m1", c9WitnessMatch)], []⟩)]

/-- C9 (witness): player 2 accepts the open rank-range-3 challenge while
the roster is empty, so both players are unranked and acceptance
succeeds. -/
theorem accept_rank_window_needs_both_ranks_witness :
    (get_match c9WitnessReg "cat" "m1" = some c9WitnessMatch ∧
     ¬ (c9WitnessMatch.status = "completed" ∨ c9WitnessMatch.status = "cancelled") ∧
     ¬ (2:Nat) = c9WitnessMatch.challenger_id ∧
     c9WitnessMatch.opponent_id = none ∧
     find_active_match_for c9WitnessReg 2 (some "m1") = none ∧
     c9WitnessMatch.rank_range = some 3 ∧
     (get_player_rank [] [] c9WitnessMatch.challenger_id = none ∨
      get_player_rank [] [] 2 = none)) ∧
    (handle_match_accept c9WitnessReg "cat" "m1" 2 true none [] [] "t").isAccepted := by
  have hrank : get_player_rank ([] : List (Nat × PlayerStats)) [] c9WitnessMatch.challenger_id = none := by
    unfold get_player_rank
    simp [List.mergeSort_nil, rankLookup]
  exact ⟨⟨rfl, by decide, by decide, rfl, rfl, rfl, Or.inl hrank⟩,
    accept_rank_window_needs_both_ranks c9WitnessReg "cat" "m1" 2 none [] [] "t"
      c9WitnessMatch 3 rfl (by decide) (by decide) rfl rfl rfl (Or.inl hrank)⟩

/-! ## Single-active-match guard (claim C6) -/

lemma get_bucket_alistSet_ne (reg : Registry) (cat cat' : String) (b : Bucket)
    (h : ¬ cat = cat') : get_bucket (alistSet reg cat b) cat' = get_bucket reg cat' := by
  unfold get_bucket
  rw [alistGet_alistSet_ne _ _ _ _ h]

lemma get_match_set_match_ne_mid (reg : Registry) (cat cat' mid mid' : String)
    (m : MatchData) (h : ¬ mid = mid') :
    get_match (set_match reg cat mid m) cat' mid' = get_match reg cat' mid' := by
  by_cases hc : cat = cat'
  · subst hc
    unfold get_match
    rw [get_bucket_set_match]
    exact alistGet_alistSet_ne _ _ _ _ h
  · unfold get_match set_match
    rw [get_bucket_alistSet_ne _ _ _ _ hc]

lemma cancel_active_match_removes (reg : Registry) (c' m' : String) (d : MatchData)
    (hgm : get_match reg c' m' = some d)
    (hnd : ((get_bucket reg c').matchesMap.map Prod.fst).Nodup) :
    ∃ R, cancel_active_match reg c' m' = some R ∧ get_match R c' m' = none := by
  unfold cancel_active_match
  rw [hgm]
  refine ⟨_, rfl, ?_⟩
  cases hth : d.thread_id with
  | none =>
    simp only [hth]
    unfold pop_match get_match get_bucket
    simp only [alistGet_alistSet_self, Option.getD_some]
    exact alistGet_alistPop_nodup _ _ hnd
  | some t =>
    simp only [hth]
    unfold pop_match get_match get_bucket
    simp only [alistGet_alistSet_self, Option.getD_some]
    exact alistGet_alistPop_nodup _ _ hnd

/-- C6 (amended): the single-active-match guards as implemented. On
acceptance, a second match attempt is rejected when the user's existing
non-terminal match is not their own challenge in `open` or `pending`
status; when it is (whether an unmatched open queue or a targeted pending
challenge), that match is auto-cancelled and acceptance proceeds. On
issuing a challenge (`challenge_anyone` / `challenge_opponent`), any
existing non-terminal match causes outright rejection, with no
auto-cancel exception. -/
theorem single_active_match_guard
    (reg : Registry) (cat mid : String) (user : Nat) (boardMode : Option ModeValue)
    (playersCat : List (Nat × PlayerStats)) (removedCat : List Nat) (now : String)
    (m d : MatchData) (c' m' : String)
    (hm : get_match reg cat mid = some m)
    (hst : ¬ (m.status = "completed" ∨ m.status = "cancelled"))
    (hch : ¬ user = m.challenger_id)
    (hfind : find_active_match_for reg user (some mid) = some (c', m', d)) :
    (¬ (d.challenger_id = user ∧ (d.status = "open" ∨ d.status = "pending")) →
      ¬ (m.opponent_id.isSome ∧ ¬ m.opponent_id = some user) →
      handle_match_accept reg cat mid user true boardMode playersCat removedCat now =
        .rejected "You already have an active challenge.") ∧
    ((d.challenger_id = user ∧ (d.status = "open" ∨ d.status = "pending")) →
      get_match reg c' m' = some d →
      ¬ mid = m' →
      m.opponent_id = none →
      m.rank_range = none →
      ((get_bucket reg c').matchesMap.map Prod.fst).Nodup →
      ∃ reg', handle_match_accept reg cat mid user true boardMode playersCat
          removedCat now = .accepted reg' ∧ get_match reg' c' m' = none) ∧
    ((find_active_match_for reg user none).isSome →
      challenge_entry_guard reg user true true =
        .rejected "You already have an active challenge.") := by
  refine ⟨?_, ?_, ?_⟩
  · intro hnsq hopp
    simp only [handle_match_accept, hm, hfind]
    rw [if_neg hst, if_neg hch]
    rw [if_neg (show ¬ ¬ True by simp)]
    rw [if_neg (show ¬ (m.opponent_id.isSome = true ∧ ¬ m.opponent_id = some user) by
      simpa using hopp)]
    rw [if_neg hnsq]
  · intro hsq hgm hmne hop hrr hnd
    obtain ⟨R, hcancel, hgone⟩ := cancel_active_match_removes reg c' m' d hgm hnd
    simp only [handle_match_accept, hm, hfind, hop, hrr]
    rw [if_neg hst, if_neg hch]
    rw [if_neg (show ¬ ¬ True by simp)]
    rw [if_neg (show ¬ ((Option.isSome (none : Option Nat)) = true ∧
      ¬ (none : Option Nat) = some user) by simp)]
    rw [if_pos hsq, hcancel]
    have h1 : ¬ (True ∧ user = m.challenger_id) := by simp [hch]
    simp only [if_neg h1, if_neg (show ¬ (false = true) by simp)]
    refine ⟨_, rfl, ?_⟩
    rw [get_match_set_match_ne_mid _ _ _ _ _ _ hmne]
    exact hgone
  · intro hf
    obtain ⟨x, hx⟩ := Option.isSome_iff_exists.mp hf
    simp only [challenge_entry_guard, hx]
    rw [if_neg (show ¬ ¬ True by simp), if_neg (show ¬ ¬ True by simp)]
    simp

/-- An unmatched open queue owned by player 1. -/
def c6OwnQueue : MatchData :=
  ⟨"m0", "cat0", 1, none, "open", none, none, none, none, "t0",
    none, none, none, none, [], [], none⟩

/-- A registry where player 1 holds only their own open queue. -/
def c6Reg : Registry := [("cat0", ⟨[("m0", c6OwnQueue)], []⟩)]

/-- A pending targeted challenge issued by player 2 against player 3. -/
def c6PendingOwn : MatchData :=
  ⟨"m0", "cat0", 2, some 3, "pending", none, none, none, none, "t0",
    none, none, none, none, [], [], none⟩

/-- An open challenge by player 1 that player 2 will accept. -/
def c6OpenOther : MatchData :=
  ⟨"m1", "cat1", 1, none, "open", none, none, none, none, "t0",
    none, none, none, none, [], [], none⟩

/-- A registry where player 2 holds a pending targeted challenge while an
open challenge by player 1 is available. -/
def c6Reg2 : Registry :=
  [("cat0", ⟨[("m0", c6PendingOwn)], []⟩), ("cat1", ⟨[("m1", c6OpenOther)], []⟩)]

/-- C6 (counterexample): the claimed exception is wrong in both
directions. Issuing a challenge while holding one's own unmatched open
queue is rejected outright (no auto-cancel), and accepting while holding
one's own pending targeted challenge (matched, not an open queue)
auto-cancels it and proceeds. -/
theorem single_active_match_c6_counterexample :
    challenge_entry_guard c6Reg 1 true true =
      .rejected "You already have an active challenge." ∧
    find_active_match_for c6Reg2 2 (some "m1") = some ("cat0", "m0", c6PendingOwn) ∧
    c6PendingOwn.status = "pending" ∧
    c6PendingOwn.opponent_id = some 3 ∧
    (handle_match_accept c6Reg2 "cat1" "m1" 2 true none [] [] "t").isAccepted := by
  refine ⟨rfl, rfl, rfl, rfl, ?_⟩
  exact trivial

/-- C6 (witness): the guard theorem applied to player 2 accepting the open
challenge in `c6Reg2` while holding a pending targeted challenge. -/
theorem single_active_match_guard_witness :
    (get_match c6Reg2 "cat1" "m1" = some c6OpenOther ∧
     ¬ (c6OpenOther.status = "completed" ∨ c6OpenOther.status = "cancelled") ∧
     ¬ (2:Nat) = c6OpenOther.challenger_id ∧
     find_active_match_for c6Reg2 2 (some "m1") =
       some ("cat0", "m0", c6PendingOwn)) ∧
    ((¬ (c6PendingOwn.challenger_id = 2 ∧
        (c6PendingOwn.status = "open" ∨ c6PendingOwn.status = "pending")) →
      ¬ (c6OpenOther.opponent_id.isSome ∧ ¬ c6OpenOther.opponent_id = some 2) →
      handle_match_accept c6Reg2 "cat1" "m1" 2 true none [] [] "t" =
        .rejected "You already have an active challenge.") ∧
     ((c6PendingOwn.challenger_id = 2 ∧
        (c6PendingOwn.status = "open" ∨ c6PendingOwn.status = "pending")) →
      get_match c6Reg2 "cat0" "m0" = some c6PendingOwn →
      ¬ "m1" = "m0" →
      c6OpenOther.opponent_id = none →
      c6OpenOther.rank_range = none →
      ((get_bucket c6Reg2 "cat0").matchesMap.map Prod.fst).Nodup →
      ∃ reg', handle_match_accept c6Reg2 "cat1" "m1" 2 true none [] [] "t" =
          .accepted reg' ∧ get_match reg' "cat0" "m0" = none) ∧
     ((find_active_match_for c6Reg2 2 none).isSome →
      challenge_entry_guard c6Reg2 2 true true =
        .rejected "You already have an active challenge.")) :=
  ⟨⟨rfl, by decide, by decide, rfl⟩,
    single_active_match_guard c6Reg2 "cat1" "m1" 2 none [] [] "t"
      c6OpenOther c6PendingOwn "cat0" "m0" rfl (by decide) (by decide) rfl⟩

/-! ## Persistence of the active-match registry (claim C7) -/

/-- Python string truthiness `s or d`: empty string falls back. -/
def pyOrStr (s d : String) : String := if s = "" then d else s

/-- Python truthiness on an optional string column: `NULL` and `""` are
falsy. Used for `if row["response_deadline"]: ...`. -/
def pyTruthyStr (s : Option String) : Option String :=
  match s with
  | none => none
  | some v => if v = "" then none else some v

/-- One row of the `active_matches` table. -/
structure MatchRow where
  category : String
  match_id : String
  leaderboard : String
  challenger_id : Nat
  opponent_id : Option Nat
  status : String
  channel_id : Option Nat
  message_id : Option Nat
  thread_id : Option Nat
  thread_message_id : Option Nat
  created_at : String
  rank_range : Option Int
  mode_key : String
  mode_target : Option Int
  response_deadline : Option String
  accepted_at : Option String

/-- One row of the `active_match_results` table. -/
structure ResultRow where
  category : String
  match_id : String
  winner_id : Nat
  loser_id : Nat
  winner_value : ℝ
  loser_value : ℝ
  completed_at : String
  override_notes : Option String
  winner_elo_change : ℝ
  loser_elo_change : ℝ
  winner_new_elo : ℝ
  loser_new_elo : ℝ
  winner_old_elo : ℝ
  loser_old_elo : ℝ

/-- One row of the `active_match_submissions` table (the `submitted_at`
entry of the in-memory record has no column and is dropped). -/
structure SubRow where
  category : String
  match_id : String
  user_id : Nat
  kind : String
  value : ℝ
  metric : ℝ

/-- One row of the `active_match_cancel_votes` table. -/
structure VoteRow where
  category : String
  match_id : String
  user_id : Nat

/-- One row of the `active_match_deletions` table. -/
structure DelRow where
  category : String
  thread_id : Nat
  delete_at : String

/-- The guild's rows across the five active-match tables, in insertion
order (the whole-scope replace deletes all previous rows first). -/
structure SavedDB where
  matchRows : List MatchRow
  resultRows : List ResultRow
  subRows : List SubRow
  voteRows : List VoteRow
  delRows : List DelRow

/-- The `mode.get("key") or "speedrun"` / `mode.get("target")` pair
extracted by `save_active_fights` (`match.get("mode") or {}`; the stored
mode snapshot is always a dict). -/
def savedModeOf (m : MatchData) : String × Option Int :=
  match m.mode with
  | some (.dict k t) => (pyOrStr (k.getD "") "speedrun", t)
  | _ => ("speedrun", none)

/-- The `active_matches` row written for one match. -/
def saveMatchRow (cat mid : String) (m : MatchData) : MatchRow :=
  ⟨cat, mid, pyOrStr m.leaderboard (normalize_category cat), m.challenger_id,
    m.opponent_id, m.status, m.channel_id, m.message_id, m.thread_id,
    m.thread_message_id, m.created_at, m.rank_range, (savedModeOf m).1,
    (savedModeOf m).2, m.response_deadline, m.accepted_at⟩

/-- The `active_match_results` rows written for one match (one when a
result dict is stored, none otherwise). -/
def saveResultRows (cat mid : String) (m : MatchData) : List ResultRow :=
  match m.result with
  | some r => [⟨cat, mid, r.winner_id, r.loser_id, r.winner_value, r.loser_value,
      r.completed_at, r.override_notes, r.winner_elo_change, r.loser_elo_change,
      r.winner_new_elo, r.loser_new_elo, r.winner_old_elo, r.loser_old_elo⟩]
  | none => []

/-- The `active_match_submissions` rows written for one match: entries
whose key fails `int()` are skipped. -/
def saveSubRows (cat mid : String) (m : MatchData) : List SubRow :=
  m.submissions.filterMap (fun p =>
    (pyStrToNat p.1).map (fun uid => ⟨cat, mid, uid, p.2.kind, p.2.value, p.2.metric⟩))

/-- The `active_match_cancel_votes` rows written for one match. -/
def saveVoteRows (cat mid : String) (m : MatchData) : List VoteRow :=
  m.cancel_votes.map (fun uid => ⟨cat, mid, uid⟩)

/-- The `active_match_deletions` rows written for one category
(`if thread_id and delete_at:` — zero and empty string are falsy). -/
def saveDelRows (cat : String) (b : Bucket) : List DelRow :=
  b.deletions.filterMap (fun d =>
    if d.1 ≠ 0 ∧ d.2 ≠ "" then some ⟨cat, d.1, d.2⟩ else none)

/-- Embedding of `BoardStorage.save_active_fights` for one guild: the
whole-scope replace deletes every existing row, then inserts rows per
category and per match in iteration order. -/
def save_active_fights (payload : Registry) : SavedDB :=
  ⟨payload.flatMap (fun cb => cb.2.matchesMap.flatMap
      (fun mm => [saveMatchRow cb.1 mm.1 mm.2])),
   payload.flatMap (fun cb => cb.2.matchesMap.flatMap
      (fun mm => saveResultRows cb.1 mm.1 mm.2)),
   payload.flatMap (fun cb => cb.2.matchesMap.flatMap
      (fun mm => saveSubRows cb.1 mm.1 mm.2)),
   payload.flatMap (fun cb => cb.2.matchesMap.flatMap
      (fun mm => saveVoteRows cb.1 mm.1 mm.2)),
   payload.flatMap (fun cb => saveDelRows cb.1 cb.2)⟩

/-- The in-memory match dictionary rebuilt by `load_all` from one
`active_matches` row: empty submissions and cancel votes, no result, the
optional timestamp fields only when truthy. -/
def matchFromRow (row : MatchRow) : MatchData :=
  ⟨row.match_id, row.leaderboard, row.challenger_id, row.opponent_id,
    row.status, row.channel_id, row.message_id, row.thread_id,
    row.thread_message_id, row.created_at, row.rank_range,
    some (.dict (some row.mode_key) row.mode_target),
    pyTruthyStr row.response_deadline, pyTruthyStr row.accepted_at, [], [], none⟩

/-- Phase 1 of the active-fights part of `load_all`: insert one match row
(`setdefault` the guild and category buckets, then assign the match). -/
def loadMatchRow (reg : Registry) (row : MatchRow) : Registry :=
  let reg1 := alistSetDefault reg row.category ⟨[], []⟩
  let b := get_bucket reg1 row.category
  alistSet reg1 row.category
    { b with matchesMap := alistSet b.matchesMap row.match_id (matchFromRow row) }

/-- Phase 2 of `load_all`: attach one result row to its match (rows whose
match is not in the index are skipped). -/
def loadResultRow (reg : Registry) (row : ResultRow) : Registry :=
  match get_match reg row.category row.match_id with
  | none => reg
  | some m => set_match reg row.category row.match_id
      { m with result := some ⟨row.winner_id, row.loser_id, row.winner_value,
          row.loser_value, row.override_notes, row.completed_at,
          row.winner_elo_change, row.loser_elo_change, row.winner_new_elo,
          row.loser_new_elo, row.winner_old_elo, row.loser_old_elo⟩ }

/-- Phase 3 of `load_all`: attach one submission row under `str(user_id)`
(no `submitted_at` column exists, so it is absent after a reload). -/
def loadSubRow (reg : Registry) (row : SubRow) : Registry :=
  match get_match reg row.category row.match_id with
  | none => reg
  | some m => set_match reg row.category row.match_id
      { m with
        submissions :=
          alistSet m.submissions (toString row.user_id) ⟨row.kind, row.value, row.metric, none⟩ }

/-- Phase 4 of `load_all`: record one cancel vote if not already present. -/
def loadVoteRow (reg : Registry) (row : VoteRow) : Registry :=
  match get_match reg row.category row.match_id with
  | none => reg
  | some m => set_match reg row.category row.match_id
      (if row.user_id ∈ m.cancel_votes then m
       else { m with cancel_votes := m.cancel_votes ++ [row.user_id] })

/-- Phase 5 of `load_all`: append one deletion entry to its category
bucket (created on demand). -/
def loadDelRow (reg : Registry) (row : DelRow) : Registry :=
  let reg1 := alistSetDefault reg row.category ⟨[], []⟩
  let b := get_bucket reg1 row.category
  alistSet reg1 row.category
    { b with deletions := b.deletions ++ [(row.thread_id, row.delete_at)] }

/-- Embedding of the active-fights part of `BoardStorage.load_all`: the
five tables are replayed in order. -/
def load_active_fights (db : SavedDB) : Registry :=
  db.delRows.foldl loadDelRow
    (db.voteRows.foldl loadVoteRow
      (db.subRows.foldl loadSubRow
        (db.resultRows.foldl loadResultRow
          (db.matchRows.foldl loadMatchRow []))))

lemma get_match_nil (cat mid : String) : get_match ([] : Registry) cat mid = none := rfl

lemma get_match_cons (c0 : String) (b0 : Bucket) (rest : Registry) (cat mid : String) :
    get_match ((c0, b0) :: rest) cat mid =
      if c0 = cat then alistGet b0.matchesMap mid else get_match rest cat mid := by
  unfold get_match get_bucket alistGet
  by_cases h : c0 = cat
  · rw [if_pos h]
    rw [List.find?_cons_of_pos _ (by simp [h])]
    rfl
  · rw [if_neg h]
    rw [List.find?_cons_of_neg _ (by simp [h])]

lemma get_match_set_match_ne (reg : Registry) (cat cat' mid mid' : String)
    (m : MatchData) (h : ¬ (cat = cat' ∧ mid = mid')) :
    get_match (set_match reg cat mid m) cat' mid' = get_match reg cat' mid' := by
  by_cases hc : cat = cat'
  · subst hc
    have hmne : ¬ mid = mid' := fun he => h ⟨rfl, he⟩
    exact get_match_set_match_ne_mid _ _ _ _ _ _ hmne
  · unfold get_match set_match
    rw [get_bucket_alistSet_ne _ _ _ _ hc]

lemma get_bucket_alistSet_self (reg : Registry) (k : String) (b : Bucket) :
    get_bucket (alistSet reg k b) k = b := by
  unfold get_bucket
  rw [alistGet_alistSet_self]
  rfl

lemma get_bucket_setDefault_self (reg : Registry) (cat : String) :
    get_bucket (alistSetDefault reg cat ⟨[], []⟩) cat = get_bucket reg cat := by
  unfold get_bucket
  rw [alistGet_alistSetDefault_self]
  cases h : alistGet reg cat <;> simp [h]

lemma get_bucket_setDefault_ne (reg : Registry) (cat cat' : String) (b : Bucket)
    (h : ¬ cat = cat') :
    get_bucket (alistSetDefault reg cat b) cat' = get_bucket reg cat' := by
  unfold get_bucket
  rw [alistGet_alistSetDefault_ne _ _ _ _ h]

lemma get_match_loadMatchRow (reg : Registry) (row : MatchRow) (cat mid : String) :
    get_match (loadMatchRow reg row) cat mid =
      if (row.category, row.match_id) = (cat, mid) then some (matchFromRow row)
      else get_match reg cat mid := by
  unfold loadMatchRow
  by_cases hc : row.category = cat
  · subst hc
    unfold get_match
    rw [get_bucket_alistSet_self]
    by_cases hm : row.match_id = mid
    · subst hm
      rw [if_pos rfl]
      exact alistGet_alistSet_self _ _ _
    · rw [if_neg (by simp [hm])]
      rw [alistGet_alistSet_ne _ _ _ _ hm]
      rw [get_bucket_setDefault_self]
  · rw [if_neg (by simp [hc])]
    unfold get_match
    rw [get_bucket_alistSet_ne _ _ _ _ hc, get_bucket_setDefault_ne _ _ _ _ hc]

lemma get_match_loadDelRow (reg : Registry) (row : DelRow) (cat mid : String) :
    get_match (loadDelRow reg row) cat mid = get_match reg cat mid := by
  unfold loadDelRow
  by_cases hc : row.category = cat
  · subst hc
    unfold get_match
    rw [get_bucket_alistSet_self]
    rw [get_bucket_setDefault_self]
  · unfold get_match
    rw [get_bucket_alistSet_ne _ _ _ _ hc, get_bucket_setDefault_ne _ _ _ _ hc]

lemma foldl_loadDelRow (rows : List DelRow) (reg : Registry) (cat mid : String) :
    get_match (rows.foldl loadDelRow reg) cat mid = get_match reg cat mid := by
  induction rows generalizing reg with
  | nil => rfl
  | cons r rest ih =>
    rw [List.foldl_cons, ih, get_match_loadDelRow]

lemma foldl_loadMatchRow_none (rows : List MatchRow) (reg : Registry) (cat mid : String)
    (hf : rows.filter (fun r => decide ((r.category, r.match_id) = (cat, mid))) = []) :
    get_match (rows.foldl loadMatchRow reg) cat mid = get_match reg cat mid := by
  induction rows generalizing reg with
  | nil => rfl
  | cons r rest ih =>
    rw [List.filter_cons] at hf
    by_cases hp : (r.category, r.match_id) = (cat, mid)
    · rw [if_pos (by simp [hp])] at hf
      exact absurd hf (List.cons_ne_nil _ _)
    · rw [if_neg (by simp [hp])] at hf
      rw [List.foldl_cons]
      rw [ih _ hf]
      rw [get_match_loadMatchRow, if_neg hp]

lemma foldl_loadMatchRow_single (rows : List MatchRow) (reg : Registry) (cat mid : String)
    (row : MatchRow)
    (hf : rows.filter (fun r => decide ((r.category, r.match_id) = (cat, mid))) = [row]) :
    get_match (rows.foldl loadMatchRow reg) cat mid = some (matchFromRow row) := by
  induction rows generalizing reg with
  | nil => simp at hf
  | cons r rest ih =>
    rw [List.filter_cons] at hf
    by_cases hp : (r.category, r.match_id) = (cat, mid)
    · rw [if_pos (by simp [hp])] at hf
      simp only [List.cons.injEq] at hf
      obtain ⟨hr, hrest⟩ := hf
      subst hr
      rw [List.foldl_cons]
      rw [foldl_loadMatchRow_none _ _ _ _ hrest]
      rw [get_match_loadMatchRow, if_pos hp]
    · rw [if_neg (by simp [hp])] at hf
      rw [List.foldl_cons]
      rw [ih _ hf]

lemma alistGet_eq_none_of_not_mem {κ α : Type} [DecidableEq κ] (l : List (κ × α)) (k : κ)
    (h : k ∉ l.map Prod.fst) : alistGet l k = none := by
  unfold alistGet
  rw [List.find?_eq_none.2]
  · rfl
  · intro x hx
    simp only [decide_eq_true_eq]
    intro he
    exact h (he ▸ List.mem_map_of_mem Prod.fst hx)

lemma alistGet_mem {κ α : Type} [DecidableEq κ] (l : List (κ × α)) (k : κ) (v : α)
    (h : alistGet l k = some v) : (k, v) ∈ l := by
  unfold alistGet at h
  cases hf : l.find? (fun p => p.1 = k) with
  | none => rw [hf] at h; simp at h
  | some p =>
    rw [hf] at h
    have hp : p ∈ l := List.mem_of_find?_eq_some hf
    have hk : p.1 = k := by have := List.find?_some hf; simpa using this
    have hv : p.2 = v := by simpa using h
    rw [← hk, ← hv]
    exact hp

lemma get_match_not_mem (reg : Registry) (cat mid : String)
    (h : cat ∉ reg.map Prod.fst) : get_match reg cat mid = none := by
  unfold get_match get_bucket
  rw [alistGet_eq_none_of_not_mem _ _ h]
  rfl

/-- The result dict rebuilt from one `active_match_results` row. -/
def resultOfRow (row : ResultRow) : MatchResult :=
  ⟨row.winner_id, row.loser_id, row.winner_value, row.loser_value,
    row.override_notes, row.completed_at, row.winner_elo_change,
    row.loser_elo_change, row.winner_new_elo, row.loser_new_elo,
    row.winner_old_elo, row.loser_old_elo⟩

/-- Effect of phase 2 of `load_all` on the match it targets. -/
def applyResultRow (m : MatchData) (row : ResultRow) : MatchData :=
  { m with result := some (resultOfRow row) }

/-- Effect of phase 3 of `load_all` on the match it targets. -/
def applySubRow (m : MatchData) (row : SubRow) : MatchData :=
  { m with submissions :=
      alistSet m.submissions (toString row.user_id) ⟨row.kind, row.value, row.metric, none⟩ }

/-- Effect of phase 4 of `load_all` on the match it targets. -/
def applyVoteRow (m : MatchData) (row : VoteRow) : MatchData :=
  if row.user_id ∈ m.cancel_votes then m
  else { m with cancel_votes := m.cancel_votes ++ [row.user_id] }

lemma get_match_loadResultRow (cat mid : String) (reg : Registry) (row : ResultRow) :
    get_match (loadResultRow reg row) cat mid =
      if (row.category, row.match_id) = (cat, mid)
      then (get_match reg cat mid).map (fun m => applyResultRow m row)
      else get_match reg cat mid := by
  by_cases hp : (row.category, row.match_id) = (cat, mid)
  · have hc : row.category = cat := congrArg Prod.fst hp
    have hm : row.match_id = mid := congrArg Prod.snd hp
    subst hc
    subst hm
    rw [if_pos rfl]
    cases h : get_match reg row.category row.match_id with
    | none => simp [loadResultRow, h]
    | some m =>
      simp only [loadResultRow, h]
      rw [get_match_set_match_self]
      rfl
  · rw [if_neg hp]
    cases h : get_match reg row.category row.match_id with
    | none => simp [loadResultRow, h]
    | some m =>
      simp only [loadResultRow, h]
      exact get_match_set_match_ne _ _ _ _ _ _ (fun hand => hp (by rw [hand.1, hand.2]))

lemma get_match_loadSubRow (cat mid : String) (reg : Registry) (row : SubRow) :
    get_match (loadSubRow reg row) cat mid =
      if (row.category, row.match_id) = (cat, mid)
      then (get_match reg cat mid).map (fun m => applySubRow m row)
      else get_match reg cat mid := by
  by_cases hp : (row.category, row.match_id) = (cat, mid)
  · have hc : row.category = cat := congrArg Prod.fst hp
    have hm : row.match_id = mid := congrArg Prod.snd hp
    subst hc
    subst hm
    rw [if_pos rfl]
    cases h : get_match reg row.category row.match_id with
    | none => simp [loadSubRow, h]
    | some m =>
      simp only [loadSubRow, h]
      rw [get_match_set_match_self]
      rfl
  · rw [if_neg hp]
    cases h : get_match reg row.category row.match_id with
    | none => simp [loadSubRow, h]
    | some m =>
      simp only [loadSubRow, h]
      exact get_match_set_match_ne _ _ _ _ _ _ (fun hand => hp (by rw [hand.1, hand.2]))

lemma get_match_loadVoteRow (cat mid : String) (reg : Registry) (row : VoteRow) :
    get_match (loadVoteRow reg row) cat mid =
      if (row.category, row.match_id) = (cat, mid)
      then (get_match reg cat mid).map (fun m => applyVoteRow m row)
      else get_match reg cat mid := by
  by_cases hp : (row.category, row.match_id) = (cat, mid)
  · have hc : row.category = cat := congrArg Prod.fst hp
    have hm : row.match_id = mid := congrArg Prod.snd hp
    subst hc
    subst hm
    rw [if_pos rfl]
    cases h : get_match reg row.category row.match_id with
    | none => simp [loadVoteRow, h]
    | some m =>
      simp only [loadVoteRow, h]
      rw [get_match_set_match_self]
      rfl
  · rw [if_neg hp]
    cases h : get_match reg row.category row.match_id with
    | none => simp [loadVoteRow, h]
    | some m =>
      simp only [loadVoteRow, h]
      exact get_match_set_match_ne _ _ _ _ _ _ (fun hand => hp (by rw [hand.1, hand.2]))

lemma foldl_keyed {Row : Type} (keyOf : Row → String × String)
    (F : Registry → Row → Registry) (g : MatchData → Row → MatchData)
    (cat mid : String)
    (hF : ∀ reg row, get_match (F reg row) cat mid =
      if keyOf row = (cat, mid) then (get_match reg cat mid).map (fun m => g m row)
      else get_match reg cat mid)
    (rows : List Row) (reg : Registry) :
    get_match (rows.foldl F reg) cat mid =
      (get_match reg cat mid).map
        (fun m => (rows.filter (fun r => decide (keyOf r = (cat, mid)))).foldl g m) := by
  induction rows generalizing reg with
  | nil =>
    rw [List.foldl_nil, List.filter_nil]
    cases get_match reg cat mid <;> rfl
  | cons r rest ih =>
    rw [List.foldl_cons, ih, hF, List.filter_cons]
    by_cases hp : keyOf r = (cat, mid)
    · rw [if_pos hp, if_pos (by simp [hp])]
      cases get_match reg cat mid <;> rfl
    · rw [if_neg hp, if_neg (by simp [hp])]

lemma filter_flatMap_bucket {Row : Type} (keyOf : Row → String × String)
    (rowsOf : String → MatchData → List Row) (cat : String)
    (hkey : ∀ k m r, r ∈ rowsOf k m → keyOf r = (cat, k))
    (ms : List (String × MatchData)) (mid : String)
    (hnd : (ms.map Prod.fst).Nodup) :
    (ms.flatMap (fun mm => rowsOf mm.1 mm.2)).filter
        (fun r => decide (keyOf r = (cat, mid))) =
      (alistGet ms mid).elim [] (fun m => rowsOf mid m) := by
  induction ms with
  | nil => rfl
  | cons p rest ih =>
    obtain ⟨k, m⟩ := p
    rw [List.flatMap_cons, List.filter_append]
    have hnd0 := hnd
    rw [List.map_cons] at hnd0
    have hnd' : (rest.map Prod.fst).Nodup := (List.nodup_cons.1 hnd0).2
    by_cases hk : k = mid
    · have hhead : (rowsOf (k, m).1 (k, m).2).filter
          (fun r => decide (keyOf r = (cat, mid))) = rowsOf k m :=
        List.filter_eq_self.2 (fun r hr => by simp [hkey k m r hr, hk])
      have hmem : mid ∉ rest.map Prod.fst := by
        rw [← hk]
        exact (List.nodup_cons.1 hnd0).1
      rw [hhead, ih hnd', alistGet_eq_none_of_not_mem _ _ hmem]
      have hget : alistGet ((k, m) :: rest) mid = some m := by
        unfold alistGet
        rw [List.find?_cons_of_pos _ (by simp [hk])]
        rfl
      rw [hget]
      simp [hk]
    · have hhead : (rowsOf (k, m).1 (k, m).2).filter
          (fun r => decide (keyOf r = (cat, mid))) = [] :=
        List.filter_eq_nil_iff.2 (fun r hr => by
          simp only [hkey k m r hr, decide_eq_true_eq, Prod.mk.injEq]
          exact fun hand => hk hand.2)
      have hget : alistGet ((k, m) :: rest) mid = alistGet rest mid := by
        unfold alistGet
        rw [List.find?_cons_of_neg _ (by simp [hk])]
      rw [hhead, ih hnd', hget]
      rfl

lemma filter_flatMap_registry {Row : Type} (keyOf : Row → String × String)
    (rowsOf : String → String → MatchData → List Row)
    (hkey : ∀ c k m r, r ∈ rowsOf c k m → keyOf r = (c, k))
    (reg : Registry) (cat mid : String)
    (hcats : (reg.map Prod.fst).Nodup)
    (hmids : ∀ c b, (c, b) ∈ reg → (b.matchesMap.map Prod.fst).Nodup) :
    (reg.flatMap (fun cb => cb.2.matchesMap.flatMap
        (fun mm => rowsOf cb.1 mm.1 mm.2))).filter
        (fun r => decide (keyOf r = (cat, mid))) =
      (get_match reg cat mid).elim [] (fun m => rowsOf cat mid m) := by
  induction reg with
  | nil => rfl
  | cons cb rest ih =>
    obtain ⟨c, b⟩ := cb
    rw [List.flatMap_cons, List.filter_append]
    have hcats' : (rest.map Prod.fst).Nodup := (List.nodup_cons.1 (by simpa using hcats)).2
    have hmids' : ∀ c' b', (c', b') ∈ rest → (b'.matchesMap.map Prod.fst).Nodup :=
      fun c' b' hmem => hmids c' b' (List.mem_cons_of_mem _ hmem)
    by_cases hc : c = cat
    · subst hc
      have hcmem : c ∉ rest.map Prod.fst := (List.nodup_cons.1 (by simpa using hcats)).1
      have hrest : get_match rest c mid = none := get_match_not_mem _ _ _ hcmem
      rw [ih hcats' hmids', hrest]
      have hhead := filter_flatMap_bucket keyOf (rowsOf c) c
        (fun k m r hr => hkey c k m r hr) b.matchesMap mid
        (hmids c b (List.mem_cons_self _ _))
      rw [hhead]
      rw [get_match_cons, if_pos rfl]
      cases alistGet b.matchesMap mid <;> simp
    · have hhead : (b.matchesMap.flatMap (fun mm => rowsOf c mm.1 mm.2)).filter
          (fun r => decide (keyOf r = (cat, mid))) = [] :=
        List.filter_eq_nil_iff.2 (fun r hr => by
          obtain ⟨mm, _, hrm⟩ := List.mem_flatMap.1 hr
          simp only [hkey c mm.1 mm.2 r hrm, decide_eq_true_eq, Prod.mk.injEq]
          exact fun hand => hc hand.1)
      rw [hhead, ih hcats' hmids', get_match_cons, if_neg hc]
      rfl

lemma alistSet_fresh {κ α : Type} [DecidableEq κ] (l : List (κ × α)) (k : κ) (v : α)
    (h : k ∉ l.map Prod.fst) : alistSet l k v = l ++ [(k, v)] := by
  induction l with
  | nil => rfl
  | cons p rest ih =>
    rw [List.map_cons] at h
    have hne : ¬ p.1 = k := fun he => h (he ▸ List.mem_cons_self _ _)
    rw [alistSet, if_neg hne, ih (fun hm => h (List.mem_cons_of_mem _ hm))]
    rfl

lemma foldl_result_rows (cat mid : String) (m m0 : MatchData) (h0 : m0.result = none) :
    (saveResultRows cat mid m).foldl applyResultRow m0 = { m0 with result := m.result } := by
  cases hr : m.result with
  | none =>
    simp only [saveResultRows, hr, List.foldl_nil]
    rw [← h0]
  | some r =>
    simp only [saveResultRows, hr, List.foldl_cons, List.foldl_nil]
    rfl

/-- Submission-map effect of one phase-3 row. -/
def subStep (s : List (String × Submission)) (row : SubRow) : List (String × Submission) :=
  alistSet s (toString row.user_id) ⟨row.kind, row.value, row.metric, none⟩

/-- Cancel-vote effect of one phase-4 row. -/
def voteStep (cv : List Nat) (row : VoteRow) : List Nat :=
  if row.user_id ∈ cv then cv else cv ++ [row.user_id]

lemma foldl_applySubRow (rows : List SubRow) (m : MatchData) :
    rows.foldl applySubRow m =
      { m with submissions := rows.foldl subStep m.submissions } := by
  induction rows generalizing m with
  | nil => rfl
  | cons row rest ih =>
    rw [List.foldl_cons, ih, List.foldl_cons]
    rfl

lemma applyVoteRow_eq (m : MatchData) (row : VoteRow) :
    applyVoteRow m row = { m with cancel_votes :=
      if row.user_id ∈ m.cancel_votes then m.cancel_votes
      else m.cancel_votes ++ [row.user_id] } := by
  unfold applyVoteRow
  by_cases h : row.user_id ∈ m.cancel_votes
  · rw [if_pos h, if_pos h]
  · rw [if_neg h, if_neg h]

lemma foldl_applyVoteRow (rows : List VoteRow) (m : MatchData) :
    rows.foldl applyVoteRow m =
      { m with cancel_votes := rows.foldl voteStep m.cancel_votes } := by
  induction rows generalizing m with
  | nil => rfl
  | cons row rest ih =>
    rw [List.foldl_cons, ih, applyVoteRow_eq, List.foldl_cons]
    rfl

lemma foldl_subs_list (cat mid : String) (subs : List (String × Submission))
    (acc : List (String × Submission))
    (hkeys : ∀ p ∈ subs, ∃ n, pyStrToNat p.1 = some n ∧ toString n = p.1)
    (hnd : (subs.map Prod.fst).Nodup)
    (hdisj : ∀ p ∈ subs, p.1 ∉ acc.map Prod.fst) :
    (subs.filterMap (fun p => (pyStrToNat p.1).map
        (fun uid => (⟨cat, mid, uid, p.2.kind, p.2.value, p.2.metric⟩ : SubRow)))).foldl
      subStep acc
    = acc ++ subs.map (fun p => (p.1, ⟨p.2.kind, p.2.value, p.2.metric, none⟩)) := by
  induction subs generalizing acc with
  | nil =>
    rw [List.filterMap_nil, List.foldl_nil, List.map_nil, List.append_nil]
  | cons p rest ih =>
    obtain ⟨n, hn, hts⟩ := hkeys p (List.mem_cons_self _ _)
    have hfp : (pyStrToNat p.1).map
        (fun uid => (⟨cat, mid, uid, p.2.kind, p.2.value, p.2.metric⟩ : SubRow)) =
        some ⟨cat, mid, n, p.2.kind, p.2.value, p.2.metric⟩ := by
      rw [hn]
      rfl
    rw [@List.filterMap_cons_some _ _
      (fun q => (pyStrToNat q.1).map
        (fun uid => (⟨cat, mid, uid, q.2.kind, q.2.value, q.2.metric⟩ : SubRow)))
      p rest _ hfp]
    simp only [List.foldl_cons, subStep]
    have hstep : alistSet acc (toString n) (⟨p.2.kind, p.2.value, p.2.metric, none⟩ : Submission)
        = acc ++ [(p.1, (⟨p.2.kind, p.2.value, p.2.metric, none⟩ : Submission))] := by
      rw [hts]
      exact alistSet_fresh _ _ _ (hdisj p (List.mem_cons_self _ _))
    rw [hstep]
    rw [List.map_cons] at hnd
    have h3 : ∀ q ∈ rest, q.1 ∉
        (acc ++ [(p.1, (⟨p.2.kind, p.2.value, p.2.metric, none⟩ : Submission))]).map Prod.fst := by
      intro q hq
      simp only [List.map_append, List.map_cons, List.map_nil, List.mem_append,
        List.mem_singleton]
      rintro (hin | hq1)
      · exact hdisj q (List.mem_cons_of_mem _ hq) hin
      · exact (List.nodup_cons.1 hnd).1 (hq1 ▸ List.mem_map_of_mem Prod.fst hq)
    rw [ih (acc ++ [(p.1, (⟨p.2.kind, p.2.value, p.2.metric, none⟩ : Submission))])
      (fun q hq => hkeys q (List.mem_cons_of_mem _ hq)) (List.nodup_cons.1 hnd).2 h3]
    simp

lemma foldl_votes_list (cat mid : String) (votes : List Nat) (acc : List Nat)
    (hnd : votes.Nodup) (hdisj : ∀ v ∈ votes, v ∉ acc) :
    (votes.map (fun uid => (⟨cat, mid, uid⟩ : VoteRow))).foldl voteStep acc
    = acc ++ votes := by
  induction votes generalizing acc with
  | nil =>
    rw [List.map_nil, List.foldl_nil, List.append_nil]
  | cons v rest ih =>
    rw [List.map_cons]
    simp only [List.foldl_cons, voteStep]
    rw [if_neg (hdisj v (List.mem_cons_self _ _))]
    have h3 : ∀ v' ∈ rest, v' ∉ acc ++ [v] := by
      intro v' hv'
      simp only [List.mem_append, List.mem_singleton]
      rintro (hin | hv1)
      · exact hdisj v' (List.mem_cons_of_mem _ hv') hin
      · exact (List.nodup_cons.1 hnd).1 (hv1 ▸ hv')
    rw [ih (acc ++ [v]) (List.nodup_cons.1 hnd).2 h3]
    simp

lemma saveSubRows_foldl (cat mid : String) (m : MatchData)
    (hkeys : ∀ p ∈ m.submissions, ∃ n, pyStrToNat p.1 = some n ∧ toString n = p.1)
    (hnd : (m.submissions.map Prod.fst).Nodup) :
    (saveSubRows cat mid m).foldl subStep [] =
      m.submissions.map (fun p => (p.1, ⟨p.2.kind, p.2.value, p.2.metric, none⟩)) := by
  have h := foldl_subs_list cat mid m.submissions [] hkeys hnd (fun p hp => by simp)
  rw [List.nil_append] at h
  exact h

lemma saveVoteRows_foldl (cat mid : String) (m : MatchData) (hnd : m.cancel_votes.Nodup) :
    (saveVoteRows cat mid m).foldl voteStep [] = m.cancel_votes := by
  have h := foldl_votes_list cat mid m.cancel_votes [] hnd (fun v hv => by simp)
  rw [List.nil_append] at h
  exact h

/-- C7 (amended): one guild's active-match registry, saved by
`save_active_fights` and replayed by the active-fights part of `load_all`,
reconstructs every match exactly up to the known normalizations: absent
categories and match ids stay absent, and a present match keeps its
status, participants, timestamps, stored result and cancel votes, while
its dict key becomes the `match_id`, an empty `leaderboard` falls back to
the normalized category, the mode snapshot is re-stored as a dict,
empty-string `response_deadline` / `accepted_at` become absent, and every
submission loses its `submitted_at` (the submissions table has no such
column). Well-formedness: category and match keys are unique, submission
keys are canonical decimal user ids, and cancel votes are duplicate-free. -/
theorem save_load_roundtrip (reg : Registry)
    (hcats : (reg.map Prod.fst).Nodup)
    (hmids : ∀ c b, (c, b) ∈ reg → (b.matchesMap.map Prod.fst).Nodup)
    (hwf : ∀ c b, (c, b) ∈ reg → ∀ k m, (k, m) ∈ b.matchesMap →
      ((∀ p ∈ m.submissions, ∃ n, pyStrToNat p.1 = some n ∧ toString n = p.1) ∧
       (m.submissions.map Prod.fst).Nodup ∧ m.cancel_votes.Nodup))
    (cat mid : String) :
    (get_match reg cat mid = none →
      get_match (load_active_fights (save_active_fights reg)) cat mid = none) ∧
    (∀ m, get_match reg cat mid = some m →
      get_match (load_active_fights (save_active_fights reg)) cat mid =
        some { m with
               id := mid,
               leaderboard := pyOrStr m.leaderboard (normalize_category cat),
               mode := some (.dict (some (savedModeOf m).1) (savedModeOf m).2),
               response_deadline := pyTruthyStr m.response_deadline,
               accepted_at := pyTruthyStr m.accepted_at,
               submissions := m.submissions.map
                 (fun p => (p.1, ⟨p.2.kind, p.2.value, p.2.metric, none⟩)) }) := by
  have hFR : ∀ rg row, get_match (loadResultRow rg row) cat mid =
      if (row.category, row.match_id) = (cat, mid)
      then (get_match rg cat mid).map (fun mm => applyResultRow mm row)
      else get_match rg cat mid := fun rg row => get_match_loadResultRow cat mid rg row
  have hFS : ∀ rg row, get_match (loadSubRow rg row) cat mid =
      if (row.category, row.match_id) = (cat, mid)
      then (get_match rg cat mid).map (fun mm => applySubRow mm row)
      else get_match rg cat mid := fun rg row => get_match_loadSubRow cat mid rg row
  have hFV : ∀ rg row, get_match (loadVoteRow rg row) cat mid =
      if (row.category, row.match_id) = (cat, mid)
      then (get_match rg cat mid).map (fun mm => applyVoteRow mm row)
      else get_match rg cat mid := fun rg row => get_match_loadVoteRow cat mid rg row
  have hfM : (reg.flatMap (fun cb => cb.2.matchesMap.flatMap
        (fun mm => [saveMatchRow cb.1 mm.1 mm.2]))).filter
        (fun r => decide ((r.category, r.match_id) = (cat, mid))) =
      (get_match reg cat mid).elim [] (fun mm => [saveMatchRow cat mid mm]) :=
    filter_flatMap_registry (fun r => (r.category, r.match_id))
      (fun c k mm => [saveMatchRow c k mm])
      (fun c k mm r hr => by
        have h := List.mem_singleton.1 hr
        subst h
        rfl)
      reg cat mid hcats hmids
  have hfR : (reg.flatMap (fun cb => cb.2.matchesMap.flatMap
        (fun mm => saveResultRows cb.1 mm.1 mm.2))).filter
        (fun r => decide ((r.category, r.match_id) = (cat, mid))) =
      (get_match reg cat mid).elim [] (fun mm => saveResultRows cat mid mm) :=
    filter_flatMap_registry (fun r => (r.category, r.match_id))
      (fun c k mm => saveResultRows c k mm)
      (fun c k mm r hr => by
        cases hres : mm.result with
        | none =>
          simp only [saveResultRows, hres] at hr
          exact absurd hr (List.not_mem_nil _)
        | some r0 =>
          simp only [saveResultRows, hres, List.mem_singleton] at hr
          subst hr
          rfl)
      reg cat mid hcats hmids
  have hfS : (reg.flatMap (fun cb => cb.2.matchesMap.flatMap
        (fun mm => saveSubRows cb.1 mm.1 mm.2))).filter
        (fun r => decide ((r.category, r.match_id) = (cat, mid))) =
      (get_match reg cat mid).elim [] (fun mm => saveSubRows cat mid mm) :=
    filter_flatMap_registry (fun r => (r.category, r.match_id))
      (fun c k mm => saveSubRows c k mm)
      (fun c k mm r hr => by
        simp only [saveSubRows] at hr
        obtain ⟨p, hp, heq⟩ := List.mem_filterMap.1 hr
        cases hn : pyStrToNat p.1 with
        | none =>
          rw [hn] at heq
          exact absurd heq (by simp)
        | some n =>
          rw [hn] at heq
          simp only [Option.map_some', Option.some.injEq] at heq
          subst heq
          rfl)
      reg cat mid hcats hmids
  have hfV : (reg.flatMap (fun cb => cb.2.matchesMap.flatMap
        (fun mm => saveVoteRows cb.1 mm.1 mm.2))).filter
        (fun r => decide ((r.category, r.match_id) = (cat, mid))) =
      (get_match reg cat mid).elim [] (fun mm => saveVoteRows cat mid mm) :=
    filter_flatMap_registry (fun r => (r.category, r.match_id))
      (fun c k mm => saveVoteRows c k mm)
      (fun c k mm r hr => by
        simp only [saveVoteRows] at hr
        obtain ⟨uid, hu, heq⟩ := List.mem_map.1 hr
        subst heq
        rfl)
      reg cat mid hcats hmids
  refine ⟨?_, ?_⟩
  · intro h0
    have hf0 : (reg.flatMap (fun cb => cb.2.matchesMap.flatMap
          (fun mm => [saveMatchRow cb.1 mm.1 mm.2]))).filter
          (fun r => decide ((r.category, r.match_id) = (cat, mid))) = [] := by
      rw [hfM, h0]
      rfl
    have hbase0 := (foldl_loadMatchRow_none _ ([] : Registry) cat mid hf0).trans
      (get_match_nil cat mid)
    simp only [load_active_fights, save_active_fights]
    rw [foldl_loadDelRow]
    simp only [foldl_keyed (fun r => (r.category, r.match_id)) loadVoteRow applyVoteRow
        cat mid hFV,
      foldl_keyed (fun r => (r.category, r.match_id)) loadSubRow applySubRow cat mid hFS,
      foldl_keyed (fun r => (r.category, r.match_id)) loadResultRow applyResultRow cat mid hFR,
      hbase0, Option.map_none']
  · intro m h1
    have hb' := h1
    unfold get_match get_bucket at hb'
    cases hb : alistGet reg cat with
    | none =>
      rw [hb] at hb'
      simp [alistGet] at hb'
    | some b =>
      rw [hb] at hb'
      have hbm : (cat, b) ∈ reg := alistGet_mem _ _ _ hb
      have hmm : (mid, m) ∈ b.matchesMap := alistGet_mem _ _ _ hb'
      obtain ⟨hkeys, hsubnd, hvotnd⟩ := hwf cat b hbm mid m hmm
      have hfsing : (reg.flatMap (fun cb => cb.2.matchesMap.flatMap
            (fun mm => [saveMatchRow cb.1 mm.1 mm.2]))).filter
            (fun r => decide ((r.category, r.match_id) = (cat, mid))) =
          [saveMatchRow cat mid m] := by
        rw [hfM, h1]
        rfl
      have hbase := foldl_loadMatchRow_single _ ([] : Registry) cat mid _ hfsing
      have e1 := foldl_result_rows cat mid m (matchFromRow (saveMatchRow cat mid m)) rfl
      have e2 : (saveSubRows cat mid m).foldl applySubRow
            { matchFromRow (saveMatchRow cat mid m) with result := m.result } =
          { matchFromRow (saveMatchRow cat mid m) with
            result := m.result,
            submissions := m.submissions.map
              (fun p => (p.1, ⟨p.2.kind, p.2.value, p.2.metric, none⟩)) } := by
        rw [foldl_applySubRow]
        rw [show ({ matchFromRow (saveMatchRow cat mid m) with
            result := m.result } : MatchData).submissions
            = ([] : List (String × Submission)) from rfl]
        rw [saveSubRows_foldl cat mid m hkeys hsubnd]
      have e3 : (saveVoteRows cat mid m).foldl applyVoteRow
            { matchFromRow (saveMatchRow cat mid m) with
              result := m.result,
              submissions := m.submissions.map
                (fun p => (p.1, ⟨p.2.kind, p.2.value, p.2.metric, none⟩)) } =
          { matchFromRow (saveMatchRow cat mid m) with
            result := m.result,
            submissions := m.submissions.map
              (fun p => (p.1, ⟨p.2.kind, p.2.value, p.2.metric, none⟩)),
            cancel_votes := m.cancel_votes } := by
        rw [foldl_applyVoteRow]
        rw [show ({ matchFromRow (saveMatchRow cat mid m) with
            result := m.result,
            submissions := m.submissions.map
              (fun p => (p.1, ⟨p.2.kind, p.2.value, p.2.metric, none⟩)) } : MatchData).cancel_votes
            = ([] : List Nat) from rfl]
        rw [saveVoteRows_foldl cat mid m hvotnd]
      simp only [load_active_fights, save_active_fights]
      rw [foldl_loadDelRow]
      simp only [foldl_keyed (fun r => (r.category, r.match_id)) loadVoteRow applyVoteRow
          cat mid hFV,
        foldl_keyed (fun r => (r.category, r.match_id)) loadSubRow applySubRow cat mid hFS,
        foldl_keyed (fun r => (r.category, r.match_id)) loadResultRow applyResultRow
          cat mid hFR,
        hfV, hfS, hfR, h1, Option.elim_some, hbase, Option.map_some']
      rw [e1, e2, e3]
      rfl

/-- A concrete one-match registry for exercising the persistence
roundtrip: a pending match with a timestamped submission, one cancel
vote, a stored result-free mode snapshot and a scheduled deletion. -/
def c7Match : MatchData :=
  ⟨"m1", "osu", 5, some 7, "awaiting_result", some 1, some 2, some 3, some 4,
    "2024-01-01T00:00:00", some 2, some (.dict (some "score") (some 3)),
    some "2024-01-02T00:00:00", some "2024-01-01T01:00:00",
    [("5", ⟨"win", 3, 3, some "2024-01-01T02:00:00"⟩)], [7], none⟩

/-- The registry holding `c7Match`. -/
def c7SaveReg : Registry :=
  [("osu", ⟨[("m1", c7Match)], [(9, "2024-01-03T00:00:00")]⟩)]

/-- C7 (counterexample): the roundtrip does not reconstruct the very same
submissions. A submission saved with a `submitted_at` timestamp comes back
without it, so the reloaded match's submission record differs from the
original one. -/
theorem save_load_c7_counterexample :
    (get_match c7SaveReg "osu" "m1").map MatchData.submissions =
        some [("5", ⟨"win", 3, 3, some "2024-01-01T02:00:00"⟩)] ∧
    (get_match (load_active_fights (save_active_fights c7SaveReg)) "osu" "m1").map
        MatchData.submissions = some [("5", ⟨"win", 3, 3, none⟩)] ∧
    ((⟨"win", 3, 3, some "2024-01-01T02:00:00"⟩ : Submission) ≠ ⟨"win", 3, 3, none⟩) := by
  refine ⟨rfl, rfl, ?_⟩
  intro h
  have h2 := congrArg Submission.submitted_at h
  simp at h2

/-- C7 (witness): the amended roundtrip theorem applied to the concrete
one-match registry `c7SaveReg`, every hypothesis discharged by evaluation. -/
theorem save_load_roundtrip_witness :
    get_match (load_active_fights (save_active_fights c7SaveReg)) "osu" "m1" =
      some { c7Match with
             id := "m1",
             leaderboard := pyOrStr c7Match.leaderboard (normalize_category "osu"),
             mode := some (.dict (some (savedModeOf c7Match).1) (savedModeOf c7Match).2),
             response_deadline := pyTruthyStr c7Match.response_deadline,
             accepted_at := pyTruthyStr c7Match.accepted_at,
             submissions := c7Match.submissions.map
               (fun p => (p.1, ⟨p.2.kind, p.2.value, p.2.metric, none⟩)) } :=
  (save_load_roundtrip c7SaveReg (by decide)
    (by
      intro c b hb
      simp only [c7SaveReg, List.mem_singleton, Prod.mk.injEq] at hb
      obtain ⟨h1, h2⟩ := hb
      subst h2
      decide)
    (by
      intro c b hb k m hm
      simp only [c7SaveReg, List.mem_singleton, Prod.mk.injEq] at hb
      obtain ⟨h1, h2⟩ := hb
      subst h2
      simp only [List.mem_singleton, Prod.mk.injEq] at hm
      obtain ⟨h3, h4⟩ := hm
      subst h4
      refine ⟨?_, by decide, by decide⟩
      intro p hp
      simp only [c7Match, List.mem_singleton] at hp
      subst hp
      exact ⟨5, by decide, by decide⟩)
    "osu" "m1").2 c7Match rfl
